import Mathlib

set_option maxRecDepth 10000

/-!
Verification of the laserstream SDK's resilient subscription engine.

This file shallowly embeds the parts of the repository that the checked
properties are about:

* `src/rust/src/client.rs` — the native Rust client (`subscribe`,
  `merge_subscribe_requests`, the reconnect supervisor loop and the
  per-update forwarding logic) — embedded in namespace `RustClient`;
* `src/javascript/napi-src/stream.rs` — the NAPI byte-stream engine
  (`StreamInner::new_bytes`, `StreamInner::connect_and_stream_bytes`,
  `StreamInner::merge_subscribe_requests`) — embedded in namespace
  `NapiStream`.

Modelling conventions:

* Rust `HashMap<String, V>` fields of `SubscribeRequest` are modelled as
  association lists (`FilterMap`) with unique keys; `extend` is a left
  fold of insertions, as in `HashMap::extend`.
* `u64` becomes `Nat` (`saturating_sub` is `Nat` subtraction), `i32`
  commitment levels become `Int`.
* Filter payload types that the engine never inspects
  (`SubscribeRequestFilterAccounts`, transaction/block/entry filters,
  data-slice descriptors) are an opaque type parameter `β`; likewise the
  payloads of non-slot update variants are an opaque parameter `π`.
  `SubscribeRequestFilterSlots` and the slot update payload are concrete
  because the engine constructs/reads them.
* The event loops (`tokio::select!` driven) are embedded as functions over
  an explicit list of externally-chosen events (inbound message, inbound
  status error, end of stream, user write); the supervisor loops are
  functions over a list of attempt outcomes (connection failure, or a
  connected session with its event list).  Outbound sends (pings, pongs,
  writes) are modelled as succeeding; protobuf encoding of forwarded
  messages is modelled as succeeding.
-/

/-! ## Association-list model of the request's map fields -/

abbrev FilterMap (β : Type) : Type := List (String × β)

def fmLookup {β : Type} : FilterMap β → String → Option β
  | [], _ => none
  | (a, b) :: rest, k => if a = k then some b else fmLookup rest k

def fmInsert {β : Type} : FilterMap β → String → β → FilterMap β
  | [], k, v => [(k, v)]
  | (a, b) :: rest, k, v =>
    if a = k then (k, v) :: rest else (a, b) :: fmInsert rest k v

/-- Rust `HashMap::extend`: insert every binding of `upd` into `base` in
iteration order (`upd` wins on key conflicts). -/
def fmExtend {β : Type} : FilterMap β → FilterMap β → FilterMap β
  | base, [] => base
  | base, kv :: rest => fmExtend (fmInsert base kv.1 kv.2) rest

/-- The keys of an association list are pairwise distinct (always true of
the Rust `HashMap`s this models). -/
def fmKeysNodup {β : Type} (m : FilterMap β) : Prop :=
  (m.map Prod.fst).Nodup

instance {β : Type} (m : FilterMap β) : Decidable (fmKeysNodup m) := by
  unfold fmKeysNodup; infer_instance

/-- First-defined choice: `match u with | some v => some v | none => b`. -/
def firstSome {β : Type} (u b : Option β) : Option β :=
  match u with
  | some v => some v
  | none => b

/-- Rust `str::starts_with`, evaluated on the character sequence (Lean's
`String.startsWith` does not reduce in the kernel). -/
def strStartsWith (s pre : String) : Bool :=
  pre.data.isPrefixOf s.data

/-! ## The geyser message model -/

/-- Model of `SubscribeRequestFilterSlots` (the engine constructs these for its
internal slot tracker). -/
structure SubscribeRequestFilterSlots where
  filter_by_commitment : Option Bool
  interslot_updates : Option Bool
deriving DecidableEq, Repr

/-- Model of `SubscribeRequestAccountsDataSlice` with offset and length. -/
structure SubscribeRequestAccountsDataSlice where
  offset : Nat
  length : Nat
deriving DecidableEq, Repr

/-- Model of `SubscribeRequest`, with the payloads the engine never inspects kept
opaque as `β`. -/
structure SubscribeRequest (β : Type) where
  accounts : FilterMap β
  slots : FilterMap SubscribeRequestFilterSlots
  transactions : FilterMap β
  transactions_status : FilterMap β
  blocks : FilterMap β
  blocks_meta : FilterMap β
  entry : FilterMap β
  accounts_data_slice : List SubscribeRequestAccountsDataSlice
  commitment : Option Int
  from_slot : Option Nat
  ping : Option Int
deriving DecidableEq, Repr

def emptyRequest {β : Type} : SubscribeRequest β :=
  ⟨[], [], [], [], [], [], [], [], none, none, none⟩

/-- Model of `SubscribeUpdateSlot` (the engine reads `.slot`). -/
structure SubscribeUpdateSlot where
  slot : Nat
  parent : Option Nat
  status : Int
  dead_error : Option String
deriving DecidableEq, Repr

/-- The `update_oneof` sum of `SubscribeUpdate`; non-slot payloads are an
opaque `π`. -/
inductive UpdateOneof (π : Type) where
  | account (p : π)
  | slot (s : SubscribeUpdateSlot)
  | transaction (p : π)
  | transactionStatus (p : π)
  | block (p : π)
  | ping
  | pong (id : Int)
  | blockMeta (p : π)
  | entry (p : π)
deriving DecidableEq, Repr

/-- Model of `SubscribeUpdate`: matched filter ids, the variant, and the
server-supplied timestamp. -/
structure SubscribeUpdate (π : Type) where
  filters : List String
  update_oneof : Option (UpdateOneof π)
  created_at : Option Nat
deriving DecidableEq, Repr

def isPingVariant {π : Type} : Option (UpdateOneof π) → Bool
  | some .ping => true
  | _ => false

def isPongVariant {π : Type} : Option (UpdateOneof π) → Bool
  | some (.pong _) => true
  | _ => false

def isSlotVariant {π : Type} : Option (UpdateOneof π) → Bool
  | some (.slot _) => true
  | _ => false

/-- Convenience constructor for a slot update carrying only a slot
number, as the scenarios use. -/
def slotMsg {π : Type} (n : Nat) (fs : List String) : SubscribeUpdate π :=
  ⟨fs, some (.slot ⟨n, none, 0, none⟩), none⟩

/-! ## Events driving one connection session, and attempt outcomes -/

/-- One externally-chosen event inside a session's `select!` loop. -/
inductive SessionEvent (β π : Type) where
  | msg (u : SubscribeUpdate π)
  | errStatus (s : String)
  | streamEnd
  | write (r : SubscribeRequest β)

/-- Outcome of one connection attempt: the connect failed, or it
succeeded and the session then processed the given events. -/
inductive AttemptOutcome (β π : Type) where
  | connectFail (e : String)
  | connected (events : List (SessionEvent β π))

/-! ## Embedding of `src/rust/src/client.rs` -/

namespace RustClient

/-- Constant `HARD_CAP_RECONNECT_ATTEMPTS: u32 = (20 * 60) / 5`. -/
def HARD_CAP_RECONNECT_ATTEMPTS : Nat := (20 * 60) / 5

/-- Derivation `let effective_max_attempts = config.max_reconnect_attempts
.unwrap_or(HARD_CAP).min(HARD_CAP)`. -/
def effectiveMaxAttempts (configured : Option Nat) : Nat :=
  min (configured.getD HARD_CAP_RECONNECT_ATTEMPTS) HARD_CAP_RECONNECT_ATTEMPTS

/-- Function `merge_subscribe_requests` (client.rs lines 84–136). -/
def merge_subscribe_requests {β : Type} (base update : SubscribeRequest β)
    (internal_slot_sub_id : String) (replay_enabled : Bool) :
    SubscribeRequest β :=
  -- Preserve the internal slot subscription (if present).
  let internal_slot_entry : Option SubscribeRequestFilterSlots :=
    if replay_enabled ∧ internal_slot_sub_id ≠ "" then
      fmLookup base.slots internal_slot_sub_id
    else none
  let accounts :=
    if update.accounts.isEmpty then base.accounts
    else fmExtend base.accounts update.accounts
  let slots :=
    if update.slots.isEmpty then base.slots
    else fmExtend base.slots update.slots
  let transactions :=
    if update.transactions.isEmpty then base.transactions
    else fmExtend base.transactions update.transactions
  let transactions_status :=
    if update.transactions_status.isEmpty then base.transactions_status
    else fmExtend base.transactions_status update.transactions_status
  let blocks :=
    if update.blocks.isEmpty then base.blocks
    else fmExtend base.blocks update.blocks
  let blocks_meta :=
    if update.blocks_meta.isEmpty then base.blocks_meta
    else fmExtend base.blocks_meta update.blocks_meta
  let entry :=
    if update.entry.isEmpty then base.entry
    else fmExtend base.entry update.entry
  let accounts_data_slice :=
    if update.accounts_data_slice.isEmpty then base.accounts_data_slice
    else base.accounts_data_slice ++ update.accounts_data_slice
  let commitment :=
    match update.commitment with
    | some c => some c
    | none => base.commitment
  let from_slot :=
    match update.from_slot with
    | some f => some f
    | none => base.from_slot
  -- Re-apply the internal slot subscription after merging.
  let slots :=
    match internal_slot_entry with
    | some slot_entry => fmInsert slots internal_slot_sub_id slot_entry
    | none => slots
  { accounts := accounts, slots := slots, transactions := transactions,
    transactions_status := transactions_status, blocks := blocks,
    blocks_meta := blocks_meta, entry := entry,
    accounts_data_slice := accounts_data_slice, commitment := commitment,
    from_slot := from_slot, ping := base.ping }

/-- The per-iteration attempt-request derivation (client.rs lines
187–203): clone `current_request`, then rewrite `from_slot` from the
tracked slot / commitment, or clear it when replay is disabled.  The
Rust `match` arms `0`, `1 | 2`, `_` are written as a sequential
if-chain. -/
def attemptRequest {β : Type} (reconnect_attempts : Nat)
    (tracked_slot : Nat) (replay_enabled : Bool)
    (current_request : SubscribeRequest β) : SubscribeRequest β :=
  let attempt_request := current_request
  if reconnect_attempts > 0 ∧ tracked_slot > 0 ∧ replay_enabled then
    let commitment_level : Int := attempt_request.commitment.getD 0
    let from_slot : Nat :=
      if commitment_level = 0 then tracked_slot - 31
      else if commitment_level = 1 ∨ commitment_level = 2 then tracked_slot
      else tracked_slot - 31
    { attempt_request with from_slot := some from_slot }
  else if ¬ replay_enabled then
    { attempt_request with from_slot := none }
  else attempt_request

/-- Shared tail of the `Ok(update)` branch (client.rs lines 264–276):
strip the internal filter and yield only when filters remain (replay
enabled), or yield as-is (replay disabled). -/
def yieldClean {π : Type} (replay_enabled : Bool)
    (internal_slot_sub_id : String) (tracked_slot : Nat)
    (update : SubscribeUpdate π) : Nat × Option (SubscribeUpdate π) :=
  if replay_enabled then
    let clean_update :=
      { update with
        filters := update.filters.filter
          (fun f => decide (f ≠ internal_slot_sub_id)) }
    if clean_update.filters.isEmpty then (tracked_slot, none)
    else (tracked_slot, some clean_update)
  else (tracked_slot, some update)

/-- The `Ok(update)` branch of the session loop (client.rs lines
235–277): returns the new tracked slot and the update forwarded to the
consumer, if any. -/
def processUpdate {π : Type} (replay_enabled : Bool)
    (internal_slot_sub_id : String) (tracked_slot : Nat)
    (update : SubscribeUpdate π) : Nat × Option (SubscribeUpdate π) :=
  match update.update_oneof with
  | some .ping => (tracked_slot, none)        -- pong sent, not forwarded
  | some (.pong _) => (tracked_slot, none)    -- not forwarded
  | some (.slot s) =>
    let tracked_slot := if replay_enabled then s.slot else tracked_slot
    -- Skip if this slot update is exclusively from the internal sub.
    if update.filters.length = 1 ∧ internal_slot_sub_id ∈ update.filters then
      (tracked_slot, none)
    else yieldClean replay_enabled internal_slot_sub_id tracked_slot update
  | _ => yieldClean replay_enabled internal_slot_sub_id tracked_slot update

/-- An item of the output stream of `subscribe`. -/
inductive RustItem (π : Type) where
  | ok (u : SubscribeUpdate π)
  | errStatus (s : String)
  | errMaxReconnect (cap : Nat)
deriving DecidableEq, Repr

structure RustSessionResult (β π : Type) where
  items : List (RustItem π)
  tracked : Nat
  current : SubscribeRequest β
deriving Repr

/-- One connected session of the Rust client (the inner `loop` at
client.rs lines 220–302): a mid-stream status error is yielded to the
consumer and ends the session; end-of-stream ends it silently; a write
is merged into `current_request` and forwarded. -/
def runSession {β π : Type} (replay_enabled : Bool)
    (internal_slot_sub_id : String) :
    Nat → SubscribeRequest β → List (SessionEvent β π) →
    RustSessionResult β π
  | tracked, current, [] => ⟨[], tracked, current⟩
  | tracked, current, .msg u :: rest =>
    let step := processUpdate replay_enabled internal_slot_sub_id tracked u
    let res := runSession replay_enabled internal_slot_sub_id step.1 current rest
    match step.2 with
    | some v => ⟨.ok v :: res.items, res.tracked, res.current⟩
    | none => res
  | tracked, current, .errStatus s :: _ => ⟨[.errStatus s], tracked, current⟩
  | tracked, current, .streamEnd :: _ => ⟨[], tracked, current⟩
  | tracked, current, .write r :: rest =>
    runSession replay_enabled internal_slot_sub_id tracked
      (merge_subscribe_requests current r internal_slot_sub_id replay_enabled)
      rest

structure RustSupResult (β π : Type) where
  items : List (RustItem π)
  attempts : Nat
  tracked : Nat
  current : SubscribeRequest β
  terminated : Bool
deriving Repr

/-- The Rust reconnect supervisor (the outer `loop` at client.rs lines
185–326).  A successful connection resets the attempt counter to 0
before the session runs; a connection-setup failure increments it and,
at the cap, yields the single terminal `MaxReconnectAttempts` error and
returns. -/
def supervisorRun {β π : Type} (effective_max_attempts : Nat)
    (replay_enabled : Bool) (internal_slot_sub_id : String) :
    Nat → Nat → SubscribeRequest β → List (AttemptOutcome β π) →
    RustSupResult β π
  | attempts, tracked, current, [] => ⟨[], attempts, tracked, current, false⟩
  | _attempts, tracked, current, .connected evs :: rest =>
    let s := runSession replay_enabled internal_slot_sub_id tracked current evs
    let res := supervisorRun effective_max_attempts replay_enabled
      internal_slot_sub_id 0 s.tracked s.current rest
    ⟨s.items ++ res.items, res.attempts, res.tracked, res.current,
      res.terminated⟩
  | attempts, tracked, current, .connectFail _e :: rest =>
    let attempts' := attempts + 1
    if attempts' ≥ effective_max_attempts then
      ⟨[.errMaxReconnect effective_max_attempts], attempts', tracked,
        current, true⟩
    else
      supervisorRun effective_max_attempts replay_enabled
        internal_slot_sub_id attempts' tracked current rest

/-- Initialization `let mut tracked_slot: u64 = 0;` (client.rs line 152). -/
def initialTrackedSlot : Nat := 0

end RustClient

/-! ## Embedding of `src/javascript/napi-src/stream.rs` -/

namespace NapiStream

/-- Constant `HARD_CAP_RECONNECT_ATTEMPTS: u32 = (20 * 60) / 5`. -/
def HARD_CAP_RECONNECT_ATTEMPTS : Nat := (20 * 60) / 5

/-- Constant `FORK_DEPTH_SAFETY_MARGIN: u64 = 31`. -/
def FORK_DEPTH_SAFETY_MARGIN : Nat := 31

/-- Derivation `max_reconnect_attempts.min(HARD_CAP_RECONNECT_ATTEMPTS)`. -/
def effectiveMaxAttempts (max_reconnect_attempts : Nat) : Nat :=
  min max_reconnect_attempts HARD_CAP_RECONNECT_ATTEMPTS

/-- The reserved key namespace of the internal slot tracker
(`__internal_slot_tracker_<uuid>`). -/
def trackerPfx : String := "__internal_slot_tracker_"

/-- Function `StreamInner::merge_subscribe_requests` (stream.rs lines 654–684):
replaces every subscription map with the modification's map, restores
the internal slot-tracker entry found by key prefix, and keeps
`from_slot`/`ping` untouched. -/
def merge_subscribe_requests {β : Type}
    (current modification : SubscribeRequest β) : SubscribeRequest β :=
  -- Save the internal slot tracker before replacing slots.
  let internal_tracker :=
    current.slots.find? (fun kv => strStartsWith kv.1 trackerPfx)
  let slots := modification.slots
  -- Restore the internal slot tracker if it existed.
  let slots :=
    match internal_tracker with
    | some kv => fmInsert slots kv.1 kv.2
    | none => slots
  { accounts := modification.accounts,
    slots := slots,
    transactions := modification.transactions,
    transactions_status := modification.transactions_status,
    blocks := modification.blocks,
    blocks_meta := modification.blocks_meta,
    entry := modification.entry,
    accounts_data_slice := modification.accounts_data_slice,
    commitment :=
      if modification.commitment.isSome then modification.commitment
      else current.commitment,
    from_slot := current.from_slot,
    ping := current.ping }

/-- Rust `Iterator::position`: index of the first element satisfying `p`. -/
def position (p : String → Bool) : List String → Option Nat
  | [] => none
  | a :: t => if p a then some 0 else (position p t).map (· + 1)

/-- Rust `Vec::swap_remove(i)`: overwrite index `i` with the last element,
then drop the last element. -/
def swapRemove (l : List String) (i : Nat) : List String :=
  (l.set i (l.getLastD default)).dropLast

/-- The filter cleanup performed on slot messages (stream.rs lines
421–423): find the internal id's position and `swap_remove` it. -/
def stripInternalFilter (filters : List String)
    (internal_slot_sub_id : String) : List String :=
  match position (fun f => f == internal_slot_sub_id) filters with
  | some pos => swapRemove filters pos
  | none => filters

/-- The `Ok(message)` branch of `connect_and_stream_bytes` (stream.rs
lines 388–465): returns the new tracked slot and the message forwarded
to the callback, if any.  Slot numbers are always stored (no replay
gate); only slot messages get the filter cleanup. -/
def processMessage {π : Type} (internal_slot_sub_id : String)
    (tracked_slot : Nat) (message : SubscribeUpdate π) :
    Nat × Option (SubscribeUpdate π) :=
  match message.update_oneof with
  | some .ping => (tracked_slot, none)        -- pong sent, not forwarded
  | some (.pong _) => (tracked_slot, none)    -- not forwarded
  | some (.slot s) =>
    let tracked_slot := s.slot
    if message.filters.length = 1 ∧ internal_slot_sub_id ∈ message.filters then
      (tracked_slot, none)                    -- exclusively internal: skip
    else
      let clean_message :=
        { message with
          filters := stripInternalFilter message.filters internal_slot_sub_id }
      (tracked_slot, some clean_message)
  | _ => (tracked_slot, some message)         -- forwarded as-is

structure JsSessionResult (β π : Type) where
  delivered : List (SubscribeUpdate π)
  tracked : Nat
  progress : Bool
  current : SubscribeRequest β
  err : Option String
deriving Repr

/-- One call of `connect_and_stream_bytes` after a successful connect
(the loop at stream.rs lines 374–491): forwards messages through the
callback (setting the progress flag), merges writes into the shared
current request, returns `Err` on a stream status error and `Ok` when
the streams end. -/
def runSession {β π : Type} (internal_slot_sub_id : String) :
    Nat → Bool → SubscribeRequest β → List (SessionEvent β π) →
    JsSessionResult β π
  | tracked, progress, current, [] => ⟨[], tracked, progress, current, none⟩
  | tracked, progress, current, .msg m :: rest =>
    let step := processMessage internal_slot_sub_id tracked m
    match step.2 with
    | some v =>
      let res := runSession internal_slot_sub_id step.1 true current rest
      ⟨v :: res.delivered, res.tracked, res.progress, res.current, res.err⟩
    | none => runSession internal_slot_sub_id step.1 progress current rest
  | tracked, progress, current, .errStatus s :: _ =>
    ⟨[], tracked, progress, current, some s⟩
  | tracked, progress, current, .streamEnd :: _ =>
    ⟨[], tracked, progress, current, none⟩
  | tracked, progress, current, .write r :: rest =>
    runSession internal_slot_sub_id tracked progress
      (merge_subscribe_requests current r) rest

/-- The post-attempt resume-point rewrite (stream.rs lines 283–307).
The Rust `match` arms `0`, `1 | 2`, `_` are written as a sequential
if-chain; note the `_` arm resumes exactly at the tracked slot. -/
def recomputeFromSlot (last_tracked_slot : Nat) (replay : Bool)
    (commitment_level : Int) : Option Nat :=
  if last_tracked_slot > 0 ∧ replay then
    some
      (if commitment_level = 0 then
        last_tracked_slot - FORK_DEPTH_SAFETY_MARGIN
      else if commitment_level = 1 ∨ commitment_level = 2 then
        last_tracked_slot
      else last_tracked_slot)
  else none

/-- An item delivered through the threadsafe callback. -/
inductive JsItem (π : Type) where
  | update (u : SubscribeUpdate π)
  | error (cap : Nat) (cause : String)
deriving DecidableEq, Repr

structure JsSupResult (β π : Type) where
  items : List (JsItem π)
  attempts : Nat
  tracked : Nat
  current : SubscribeRequest β
  terminated : Bool
deriving Repr

/-- The NAPI reconnect supervisor (the spawned loop at stream.rs lines
228–313).  The progress flag is reset before each attempt; on a session
error the counter is incremented, then reset to 1 if progress was made;
at the cap one terminal error is delivered and the loop breaks (no
resume-point rewrite); otherwise `from_slot` is recomputed before the
next attempt.  `commitment_level` is read once, before the loop. -/
def supervisorRun {β π : Type} (effective_max_attempts : Nat)
    (replay : Bool) (internal_slot_sub_id : String)
    (commitment_level : Int) :
    Nat → Nat → SubscribeRequest β → List (AttemptOutcome β π) →
    JsSupResult β π
  | attempts, tracked, current, [] => ⟨[], attempts, tracked, current, false⟩
  | attempts, tracked, current, .connectFail e :: rest =>
    -- progress flag was reset and no session ran, so it is false here
    let attempts' := attempts + 1
    if attempts' ≥ effective_max_attempts then
      ⟨[.error effective_max_attempts e], attempts', tracked, current, true⟩
    else
      let current' :=
        { current with
          from_slot := recomputeFromSlot tracked replay commitment_level }
      supervisorRun effective_max_attempts replay internal_slot_sub_id
        commitment_level attempts' tracked current' rest
  | attempts, tracked, current, .connected evs :: rest =>
    let s := runSession internal_slot_sub_id tracked false current evs
    match s.err with
    | none =>
      let current' :=
        { s.current with
          from_slot := recomputeFromSlot s.tracked replay commitment_level }
      let res := supervisorRun effective_max_attempts replay
        internal_slot_sub_id commitment_level 0 s.tracked current' rest
      ⟨s.delivered.map .update ++ res.items, res.attempts, res.tracked,
        res.current, res.terminated⟩
    | some e =>
      let attempts' := if s.progress then 1 else attempts + 1
      if attempts' ≥ effective_max_attempts then
        ⟨s.delivered.map .update ++ [.error effective_max_attempts e],
          attempts', s.tracked, s.current, true⟩
      else
        let current' :=
          { s.current with
            from_slot := recomputeFromSlot s.tracked replay commitment_level }
        let res := supervisorRun effective_max_attempts replay
          internal_slot_sub_id commitment_level attempts' s.tracked
          current' rest
        ⟨s.delivered.map .update ++ res.items, res.attempts, res.tracked,
          res.current, res.terminated⟩

/-- Initialization `AtomicU64::new(0)` (stream.rs line 194). -/
def initialTrackedSlot : Nat := 0

end NapiStream

/-! ## Lemmas about the association-list maps -/

theorem fmLookup_not_key {β : Type} {m : FilterMap β} {k : String}
    (h : k ∉ m.map Prod.fst) : fmLookup m k = none := by
  induction m with
  | nil => rfl
  | cons kv rest ih =>
    obtain ⟨a, b⟩ := kv
    simp only [List.map_cons, List.mem_cons, not_or] at h
    have h1 : ¬ a = k := fun hh => h.1 hh.symm
    simp [fmLookup, h1, ih h.2]

theorem fmLookup_fmInsert {β : Type} (m : FilterMap β) (k : String) (v : β)
    (k' : String) :
    fmLookup (fmInsert m k v) k' = if k = k' then some v else fmLookup m k' := by
  induction m with
  | nil => simp [fmInsert, fmLookup]
  | cons kv rest ih =>
    obtain ⟨a, b⟩ := kv
    by_cases hak : a = k
    · subst hak
      by_cases hk' : a = k'
      · subst hk'; simp [fmInsert, fmLookup]
      · simp [fmInsert, fmLookup, hk']
    · by_cases hk' : a = k'
      · subst hk'
        have hne : ¬ k = a := fun h => hak h.symm
        simp [fmInsert, fmLookup, hak, hne]
      · simp [fmInsert, fmLookup, hak, hk', ih]

theorem fmLookup_fmExtend {β : Type} (b u : FilterMap β) (k : String)
    (h : fmKeysNodup u) :
    fmLookup (fmExtend b u) k = firstSome (fmLookup u k) (fmLookup b k) := by
  induction u generalizing b with
  | nil => simp [fmExtend, fmLookup, firstSome]
  | cons kv rest ih =>
    obtain ⟨a, v⟩ := kv
    have h' : (a :: rest.map Prod.fst).Nodup := by
      have h0 : (((a, v) :: rest).map Prod.fst).Nodup := h
      rwa [List.map_cons] at h0
    have hh := List.nodup_cons.mp h'
    have hna : a ∉ rest.map Prod.fst := hh.1
    have hnd : fmKeysNodup rest := hh.2
    show fmLookup (fmExtend (fmInsert b a v) rest) k = _
    rw [ih (fmInsert b a v) hnd]
    by_cases hak : a = k
    · subst hak
      have hrest : fmLookup rest a = none := fmLookup_not_key hna
      simp [fmLookup, hrest, firstSome, fmLookup_fmInsert]
    · rw [fmLookup_fmInsert]
      simp [fmLookup, hak]

/-! ## Lemmas about `position`, `swap_remove` and the filter cleanup -/

namespace NapiStream

theorem position_eq_none {l : List String} {iid : String} (h : iid ∉ l) :
    position (fun f => f == iid) l = none := by
  induction l with
  | nil => rfl
  | cons a t ih =>
    simp only [List.mem_cons, not_or] at h
    have ha : ¬ (a == iid) = true := by
      simp [beq_iff_eq]
      exact fun hh => h.1 hh.symm
    simp [position, ha, ih h.2]

theorem position_mem {l : List String} {iid : String} (h : iid ∈ l) :
    ∃ j, position (fun f => f == iid) l = some j := by
  induction l with
  | nil => simp at h
  | cons a t ih =>
    by_cases ha : a = iid
    · exact ⟨0, by simp [position, ha]⟩
    · have ht : iid ∈ t := by
        rcases List.mem_cons.mp h with h1 | h1
        · exact absurd h1.symm ha
        · exact h1
      obtain ⟨j, hj⟩ := ih ht
      refine ⟨j + 1, ?_⟩
      have ha' : ¬ (a == iid) = true := by simpa [beq_iff_eq] using ha
      simp [position, ha', hj]

theorem getLastD_congr {l : List String} (h : l ≠ []) (x y : String) :
    l.getLastD x = l.getLastD y := by
  cases l with
  | nil => exact absurd rfl h
  | cons a t => rw [List.getLastD_cons, List.getLastD_cons]

theorem dropLast_cons_ne (a : String) {l : List String} (h : l ≠ []) :
    (a :: l).dropLast = a :: l.dropLast := by
  cases l with
  | nil => exact absurd rfl h
  | cons b t => rfl

theorem swapRemove_cons_zero (a : String) {t : List String} (ht : t ≠ []) :
    swapRemove (a :: t) 0 = t.getLastD default :: t.dropLast := by
  unfold swapRemove
  rw [List.set_cons_zero, List.getLastD_cons, getLastD_congr ht a default,
    dropLast_cons_ne _ ht]

theorem swapRemove_cons_succ (a : String) {t : List String} (i : Nat)
    (ht : t ≠ []) :
    swapRemove (a :: t) (i + 1) = a :: swapRemove t i := by
  unfold swapRemove
  rw [List.set_cons_succ, List.getLastD_cons, getLastD_congr ht a default]
  have hset : t.set i (t.getLastD default) ≠ [] := by
    intro hc
    have := congrArg List.length hc
    rw [List.length_set] at this
    exact ht (List.eq_nil_of_length_eq_zero this)
  exact dropLast_cons_ne _ hset

theorem swapRemove_singleton (a : String) : swapRemove [a] 0 = [] := rfl

theorem lastD_cons_dropLast_perm :
    ∀ (t : List String), t ≠ [] →
      List.Perm (t.getLastD default :: t.dropLast) t
  | [x], _ => by simp [List.getLastD_cons]
  | x :: y :: r, _ => by
    have ih := lastD_cons_dropLast_perm (y :: r) (by simp)
    have hg : (x :: y :: r).getLastD default = (y :: r).getLastD default := by
      rw [List.getLastD_cons, getLastD_congr (by simp) x default]
    rw [hg, dropLast_cons_ne x (by simp)]
    exact ((List.Perm.swap x ((y :: r).getLastD default) _).trans
      (List.Perm.cons x ih))

theorem stripInternalFilter_perm :
    ∀ (F : List String) (iid : String), iid ∈ F →
      List.Perm (stripInternalFilter F iid) (F.erase iid)
  | a :: t, iid, hmem => by
    by_cases ha : a = iid
    · subst ha
      have hpos : position (fun f => f == a) (a :: t) = some 0 := by
        simp [position]
      simp only [stripInternalFilter, hpos]
      rw [List.erase_cons_head]
      cases t with
      | nil => simp [swapRemove_singleton]
      | cons b r =>
        rw [swapRemove_cons_zero a (by simp)]
        exact lastD_cons_dropLast_perm (b :: r) (by simp)
    · have ht : iid ∈ t := by
        rcases List.mem_cons.mp hmem with h1 | h1
        · exact absurd h1.symm ha
        · exact h1
      obtain ⟨j, hj⟩ := position_mem ht
      have ha' : ¬ (a == iid) = true := by simpa [beq_iff_eq] using ha
      have hpos : position (fun f => f == iid) (a :: t) = some (j + 1) := by
        simp [position, ha', hj]
      have htne : t ≠ [] := List.ne_nil_of_mem ht
      have hstrip_t : stripInternalFilter t iid = swapRemove t j := by
        rw [stripInternalFilter, hj]
      have ih := stripInternalFilter_perm t iid ht
      simp only [stripInternalFilter, hpos]
      rw [swapRemove_cons_succ a j htne, List.erase_cons_tail (by simpa using ha'),
        ← hstrip_t]
      exact List.Perm.cons a ih

end NapiStream

/-! ## Lemmas about filtering and counting filter ids -/

theorem filter_ne_of_not_mem {l : List String} {iid : String} (h : iid ∉ l) :
    l.filter (fun f => decide (f ≠ iid)) = l := by
  induction l with
  | nil => rfl
  | cons a t ih =>
    simp only [List.mem_cons, not_or] at h
    have ha : a ≠ iid := fun hh => h.1 hh.symm
    rw [List.filter_cons, if_pos (by simpa using ha), ih h.2]

theorem filter_ne_count_one {l : List String} {iid : String}
    (h : l.count iid = 1) :
    l.filter (fun f => decide (f ≠ iid)) = l.erase iid := by
  induction l with
  | nil => simp at h
  | cons a t ih =>
    by_cases ha : a = iid
    · subst ha
      have ht : a ∉ t := by
        rw [List.count_cons_self] at h
        exact List.count_eq_zero.mp (by omega)
      rw [List.erase_cons_head]
      rw [List.filter_cons, if_neg (by simp)]
      exact filter_ne_of_not_mem ht
    · have hcount : t.count iid = 1 := by
        rw [List.count_cons, if_neg (by simpa using ha)] at h
        omega
      rw [List.erase_cons_tail (by simpa using ha)]
      rw [List.filter_cons, if_pos (by simpa using ha), ih hcount]

theorem count_stripInternalFilter {F : List String} {iid : String}
    (hmem : iid ∈ F) :
    (NapiStream.stripInternalFilter F iid).count iid = F.count iid - 1 := by
  rw [(NapiStream.stripInternalFilter_perm F iid hmem).count_eq]
  exact List.count_erase_self iid F

theorem not_mem_stripInternalFilter {F : List String} {iid : String}
    (hmem : iid ∈ F) (hcount : F.count iid ≤ 1) :
    iid ∉ NapiStream.stripInternalFilter F iid := by
  apply List.count_eq_zero.mp
  rw [count_stripInternalFilter hmem]
  omega

/-! ## Locating the internal tracker entry in the cached request -/

theorem find_tracker_eq {β : Type} (slots : FilterMap β) (iid : String)
    (v : β) (p : String → Bool) (h1 : p iid = true)
    (h2 : ∀ kv ∈ slots, p kv.1 = true → kv.1 = iid)
    (h3 : fmLookup slots iid = some v) :
    slots.find? (fun kv => p kv.1) = some (iid, v) := by
  induction slots with
  | nil => simp [fmLookup] at h3
  | cons kv rest ih =>
    obtain ⟨a, b⟩ := kv
    by_cases hpa : p a = true
    · have ha : a = iid := h2 (a, b) (by simp) hpa
      subst ha
      have hbv : b = v := by simpa [fmLookup] using h3
      subst hbv
      exact List.find?_cons_of_pos _ (by simpa using hpa)
    · have ha : a ≠ iid := fun h => hpa (h ▸ h1)
      rw [List.find?_cons_of_neg _ (by simpa using hpa)]
      exact ih (fun kv hkv hp => h2 kv (List.mem_cons_of_mem _ hkv) hp)
        (by simpa [fmLookup, ha] using h3)

/-! ## Claim C1 — resume-point computation -/

/-- Claim C1, counterexample: the claim states that on reconnect with
replay enabled and tracked slot `s > 0`, any commitment value other than
Processed (0), Confirmed (1) or Finalized (2) yields `from_slot = s − 31`;
but the NAPI engine's post-attempt rewrite (stream.rs lines 299–301)
resumes exactly at the tracked slot for unknown commitment values:
at `s = 100`, commitment `3`, it writes `some 100`, not `some 69`. -/
theorem c1_counterexample :
    NapiStream.recomputeFromSlot 100 true 3 = some 100 ∧
    NapiStream.recomputeFromSlot 100 true 3 ≠ some (100 - 31) := by
  constructor
  · decide
  · decide

/-- Claim C1 (amended): resume-point computation.  Rust client (client.rs
185–203): on a non-initial attempt with replay enabled and tracked slot
`s > 0`, the attempt request's `from_slot` is `s − 31` (saturating) for
Processed (0) and for any unknown commitment value, and exactly `s` for
Confirmed (1) / Finalized (2); when replay is disabled `from_slot` is
cleared; when replay is enabled but `s = 0` or the attempt is the initial
one, the cached request's `from_slot` is used unchanged (not cleared).
NAPI engine (stream.rs 283–307): after an attempt, with replay enabled
and `s > 0`, `from_slot` is `s − 31` for Processed (0) and exactly `s`
for Confirmed, Finalized and any other commitment value; when replay is
disabled or `s = 0`, `from_slot` is cleared. -/
theorem c1_amended {β : Type} (n s : Nat) (c : Int)
    (cur : SubscribeRequest β) :
    (0 < s →
      (RustClient.attemptRequest (n + 1) s true cur).from_slot =
        some (if cur.commitment.getD 0 = 1 ∨ cur.commitment.getD 0 = 2
          then s else s - 31)) ∧
    (RustClient.attemptRequest n s false cur).from_slot = none ∧
    (RustClient.attemptRequest n 0 true cur).from_slot = cur.from_slot ∧
    (RustClient.attemptRequest 0 s true cur).from_slot = cur.from_slot ∧
    (0 < s →
      NapiStream.recomputeFromSlot s true c =
        some (if c = 0 then s - NapiStream.FORK_DEPTH_SAFETY_MARGIN else s)) ∧
    NapiStream.recomputeFromSlot s false c = none ∧
    NapiStream.recomputeFromSlot 0 true c = none := by
  refine ⟨?_, ?_, ?_, ?_, ?_, ?_, ?_⟩
  · intro hs
    rw [RustClient.attemptRequest, if_pos ⟨by omega, hs, rfl⟩]
    by_cases h0 : cur.commitment.getD 0 = 0
    · have h12 : ¬ (cur.commitment.getD 0 = 1 ∨ cur.commitment.getD 0 = 2) := by
        rw [h0]; norm_num
      simp [h0, h12]
    · simp [h0]
  · simp [RustClient.attemptRequest]
  · simp [RustClient.attemptRequest]
  · simp [RustClient.attemptRequest]
  · intro hs
    rw [NapiStream.recomputeFromSlot, if_pos ⟨hs, rfl⟩]
    by_cases h0 : c = 0
    · rw [if_pos h0, if_pos h0]
    · rw [if_neg h0, if_neg h0]
      by_cases h12 : c = 1 ∨ c = 2
      · rw [if_pos h12]
      · rw [if_neg h12]
  · simp [NapiStream.recomputeFromSlot]
  · simp [NapiStream.recomputeFromSlot]

/-- Claim C1, witness: the amended theorem instantiated at concrete
inputs (tracked slot 100, commitment 3, cached `from_slot = some 7`). -/
theorem c1_amended_witness :
    (RustClient.attemptRequest 1 100 true
      ({ emptyRequest with commitment := some 3, from_slot := some 7 } :
        SubscribeRequest Nat)).from_slot = some 69 ∧
    (RustClient.attemptRequest 1 100 false
      ({ emptyRequest with commitment := some 3, from_slot := some 7 } :
        SubscribeRequest Nat)).from_slot = none ∧
    (RustClient.attemptRequest 1 0 true
      ({ emptyRequest with commitment := some 3, from_slot := some 7 } :
        SubscribeRequest Nat)).from_slot = some 7 ∧
    NapiStream.recomputeFromSlot 100 true 3 = some 100 ∧
    NapiStream.recomputeFromSlot 100 false 3 = none := by
  have h := c1_amended (β := Nat) 0 100 3
    ({ emptyRequest with commitment := some 3, from_slot := some 7 })
  refine ⟨?_, h.2.1, h.2.2.1, ?_, h.2.2.2.2.2.1⟩
  · have h1 := h.1 (by decide)
    simpa using h1
  · have h5 := h.2.2.2.2.1 (by decide)
    simpa using h5

/-! ## Claim C9 — merge `from_slot` rule -/

/-- Claim C9, counterexample: the claim states that the merge overwrites
`base.from_slot` when the update carries one; the NAPI merger
(stream.rs 683: "from_slot and ping are not replaced") keeps the base
value: with `base.from_slot = some 7` and `update.from_slot = some 99`,
the merged request still carries `some 7`. -/
theorem c9_counterexample :
    (NapiStream.merge_subscribe_requests
      ({ emptyRequest with from_slot := some 7 } : SubscribeRequest Nat)
      ({ emptyRequest with from_slot := some 99 })).from_slot = some 7 ∧
    (NapiStream.merge_subscribe_requests
      ({ emptyRequest with from_slot := some 7 } : SubscribeRequest Nat)
      ({ emptyRequest with from_slot := some 99 })).from_slot ≠ some 99 := by
  constructor
  · rfl
  · decide

/-- Claim C9 (amended): the Rust client's merger overwrites
`base.from_slot` with `update.from_slot` when the update carries one and
keeps the base value otherwise (client.rs 127–129); the NAPI merger never
touches `from_slot` — the merged request always keeps the current
request's value, even when the modification carries one. -/
theorem c9_amended {β : Type} (base upd cur mod : SubscribeRequest β)
    (iid : String) (replay : Bool) :
    (RustClient.merge_subscribe_requests base upd iid replay).from_slot =
      firstSome upd.from_slot base.from_slot ∧
    (NapiStream.merge_subscribe_requests cur mod).from_slot =
      cur.from_slot := by
  constructor
  · simp only [RustClient.merge_subscribe_requests]
    cases h : upd.from_slot <;> simp [firstSome, h]
  · rfl

/-! ## Tracked-slot helper lemmas (claim C8) -/

theorem rustYieldClean_fst {π : Type} (r : Bool) (iid : String) (t : Nat)
    (u : SubscribeUpdate π) : (RustClient.yieldClean r iid t u).1 = t := by
  simp only [RustClient.yieldClean]
  split_ifs <;> rfl

theorem rustProcessUpdate_fst_slot {π : Type} (r : Bool) (iid : String)
    (t : Nat) (u : SubscribeUpdate π) (s : SubscribeUpdateSlot)
    (h : u.update_oneof = some (.slot s)) :
    (RustClient.processUpdate r iid t u).1 = if r then s.slot else t := by
  rw [RustClient.processUpdate, h]
  split_ifs with h1 h2 <;> simp_all [rustYieldClean_fst]

theorem jsProcessMessage_fst_slot {π : Type} (iid : String) (t : Nat)
    (m : SubscribeUpdate π) (s : SubscribeUpdateSlot)
    (h : m.update_oneof = some (.slot s)) :
    (NapiStream.processMessage iid t m).1 = s.slot := by
  rw [NapiStream.processMessage, h]
  split_ifs <;> rfl

theorem rust_session_msg_tracked {β π : Type} (r : Bool) (iid : String)
    (t : Nat) (cur : SubscribeRequest β) (u : SubscribeUpdate π)
    (rest : List (SessionEvent β π)) :
    (RustClient.runSession r iid t cur (.msg u :: rest)).tracked =
      (RustClient.runSession r iid (RustClient.processUpdate r iid t u).1
        cur rest).tracked := by
  rw [RustClient.runSession]
  cases h2 : (RustClient.processUpdate r iid t u).2 <;> simp [h2]

theorem js_session_tracked_progress_irrel {β π : Type} (iid : String)
    (evs : List (SessionEvent β π)) :
    ∀ (t : Nat) (p1 p2 : Bool) (cur : SubscribeRequest β),
      (NapiStream.runSession iid t p1 cur evs).tracked =
        (NapiStream.runSession iid t p2 cur evs).tracked := by
  induction evs with
  | nil => intro t p1 p2 cur; rfl
  | cons ev rest ih =>
    intro t p1 p2 cur
    cases ev with
    | msg u =>
      rw [NapiStream.runSession, NapiStream.runSession]
      cases h2 : (NapiStream.processMessage iid t u).2 with
      | none => simpa [h2] using ih _ p1 p2 cur
      | some v => simp [h2]
    | errStatus s => rfl
    | streamEnd => rfl
    | write r =>
      rw [NapiStream.runSession, NapiStream.runSession]
      exact ih _ _ _ _

theorem js_session_msg_tracked {β π : Type} (iid : String) (t : Nat)
    (prog : Bool) (cur : SubscribeRequest β) (u : SubscribeUpdate π)
    (rest : List (SessionEvent β π)) :
    (NapiStream.runSession iid t prog cur (.msg u :: rest)).tracked =
      (NapiStream.runSession iid (NapiStream.processMessage iid t u).1 prog
        cur rest).tracked := by
  rw [NapiStream.runSession]
  cases h2 : (NapiStream.processMessage iid t u).2 with
  | none => simp [h2]
  | some v =>
    simpa [h2] using
      js_session_tracked_progress_irrel iid rest _ true prog cur

theorem rust_session_tracked_slots {β π : Type} (iid : String)
    (fs : List String) (slots : List Nat) (t0 : Nat)
    (cur : SubscribeRequest β) :
    (RustClient.runSession true iid t0 cur
      (slots.map (fun n => SessionEvent.msg (β := β) (π := π)
        (slotMsg n fs)))).tracked = slots.getLastD t0 := by
  induction slots generalizing t0 with
  | nil => rfl
  | cons n rest ih =>
    rw [List.map_cons, rust_session_msg_tracked,
      rustProcessUpdate_fst_slot true iid t0 _ _ rfl, if_pos rfl,
      List.getLastD_cons]
    exact ih n

theorem rust_session_tracked_slots_noreplay {β π : Type} (iid : String)
    (fs : List String) (slots : List Nat) (t0 : Nat)
    (cur : SubscribeRequest β) :
    (RustClient.runSession false iid t0 cur
      (slots.map (fun n => SessionEvent.msg (β := β) (π := π)
        (slotMsg n fs)))).tracked = t0 := by
  induction slots generalizing t0 with
  | nil => rfl
  | cons n rest ih =>
    rw [List.map_cons, rust_session_msg_tracked,
      rustProcessUpdate_fst_slot false iid t0 _ _ rfl]
    simpa using ih t0

theorem js_session_tracked_slots {β π : Type} (iid : String)
    (fs : List String) (slots : List Nat) (t0 : Nat) (prog : Bool)
    (cur : SubscribeRequest β) :
    (NapiStream.runSession iid t0 prog cur
      (slots.map (fun n => SessionEvent.msg (β := β) (π := π)
        (slotMsg n fs)))).tracked = slots.getLastD t0 := by
  induction slots generalizing t0 prog with
  | nil => rfl
  | cons n rest ih =>
    rw [List.map_cons, js_session_msg_tracked,
      jsProcessMessage_fst_slot iid t0 _ _ rfl, List.getLastD_cons]
    exact ih n prog

/-! ## Claim C8 — tracked-slot monotonicity -/

/-- Claim C8, counterexample: the claim states the tracked slot equals
the highest slot number observed so far, and in particular never
decreases; but both engines store each observed slot number directly
(client.rs 255, stream.rs 409): after observing slot events 5 then 3
(replay enabled), the tracked slot is 3, not 5. -/
theorem c8_counterexample :
    (RustClient.runSession true ("i") 0 (emptyRequest : SubscribeRequest Nat)
      ([.msg (slotMsg 5 [("u")]), .msg (slotMsg 3 [("u")])] :
        List (SessionEvent Nat Nat))).tracked = 3 ∧
    (RustClient.runSession true ("i") 0 (emptyRequest : SubscribeRequest Nat)
      ([.msg (slotMsg 5 [("u")]), .msg (slotMsg 3 [("u")])] :
        List (SessionEvent Nat Nat))).tracked ≠ 5 := by
  constructor
  · decide
  · decide

/-- Claim C8 (amended): the tracked slot starts at 0 and each observed
Slot event overwrites it with that event's slot number (a plain store,
not a maximum), so after a sequence of Slot events it equals the slot
number of the last event observed (or the prior value for an empty
sequence).  In the Rust client the store only happens when replay is
enabled (otherwise the tracked slot keeps its prior value); the NAPI
engine stores unconditionally. -/
theorem c8_amended {β π : Type} (iid : String) (fs : List String)
    (slots : List Nat) (t0 : Nat) (prog : Bool)
    (cur : SubscribeRequest β) :
    RustClient.initialTrackedSlot = 0 ∧
    NapiStream.initialTrackedSlot = 0 ∧
    (RustClient.runSession true iid t0 cur
      (slots.map (fun n => SessionEvent.msg (β := β) (π := π)
        (slotMsg n fs)))).tracked = slots.getLastD t0 ∧
    (RustClient.runSession false iid t0 cur
      (slots.map (fun n => SessionEvent.msg (β := β) (π := π)
        (slotMsg n fs)))).tracked = t0 ∧
    (NapiStream.runSession iid t0 prog cur
      (slots.map (fun n => SessionEvent.msg (β := β) (π := π)
        (slotMsg n fs)))).tracked = slots.getLastD t0 :=
  ⟨rfl, rfl, rust_session_tracked_slots iid fs slots t0 cur,
    rust_session_tracked_slots_noreplay iid fs slots t0 cur,
    js_session_tracked_slots iid fs slots t0 prog cur⟩

/-! ## Claim C5 — internal slot-entry preservation across merge -/

theorem find_tracker_with_pfx {β : Type} (slots : FilterMap β)
    (iid : String) (v : β)
    (h1 : strStartsWith iid NapiStream.trackerPfx = true)
    (h2 : ∀ kv ∈ slots, strStartsWith kv.1 NapiStream.trackerPfx = true →
      kv.1 = iid)
    (h3 : fmLookup slots iid = some v) :
    slots.find? (fun kv => strStartsWith kv.1 NapiStream.trackerPfx) =
      some (iid, v) :=
  find_tracker_eq slots iid v
    (fun s => strStartsWith s NapiStream.trackerPfx) h1 h2 h3

/-- Claim C5 (confirmed): internal slot-entry preservation across merge.
Rust client: when replay is enabled and the internal id is nonempty, the
merged request's slots entry for the internal id equals the value base
held before the merge, even if the update carried a colliding key
(client.rs 90–95, 131–135).  NAPI engine: when the cached request holds
the internal tracker entry (its key carries the reserved prefix and is
the only such key), the merged slots map keeps exactly that entry, even
though all slot entries are otherwise replaced (stream.rs 658–676). -/
theorem c5_internal_entry_preserved {β : Type}
    (base upd cur mod : SubscribeRequest β) (iid : String)
    (v v' : SubscribeRequestFilterSlots)
    (hne : iid ≠ "")
    (hbase : fmLookup base.slots iid = some v)
    (hpfx : strStartsWith iid NapiStream.trackerPfx = true)
    (huniq : ∀ kv ∈ cur.slots,
      strStartsWith kv.1 NapiStream.trackerPfx = true → kv.1 = iid)
    (hcur : fmLookup cur.slots iid = some v') :
    fmLookup
      (RustClient.merge_subscribe_requests base upd iid true).slots iid =
      some v ∧
    fmLookup (NapiStream.merge_subscribe_requests cur mod).slots iid =
      some v' := by
  constructor
  · simp [RustClient.merge_subscribe_requests, hne, hbase, fmLookup_fmInsert]
  · have hfind := find_tracker_with_pfx cur.slots iid v' hpfx huniq hcur
    simp [NapiStream.merge_subscribe_requests, hfind, fmLookup_fmInsert]

/-- Claim C5, witness: both merges at a concrete colliding update. -/
theorem c5_witness :
    fmLookup
      (RustClient.merge_subscribe_requests
        ({ emptyRequest with
          slots := [(("__internal_slot_tracker_x"), ⟨some true, some false⟩)] } :
            SubscribeRequest Nat)
        ({ emptyRequest with
          slots := [(("__internal_slot_tracker_x"), ⟨some false, some true⟩)] })
        ("__internal_slot_tracker_x") true).slots
      ("__internal_slot_tracker_x") = some ⟨some true, some false⟩ ∧
    fmLookup
      (NapiStream.merge_subscribe_requests
        ({ emptyRequest with
          slots := [(("__internal_slot_tracker_x"), ⟨some true, some false⟩)] } :
            SubscribeRequest Nat)
        ({ emptyRequest with
          slots := [(("__internal_slot_tracker_x"), ⟨some false, some true⟩)] })).slots
      ("__internal_slot_tracker_x") = some ⟨some true, some false⟩ :=
  c5_internal_entry_preserved
    ({ emptyRequest with
      slots := [(("__internal_slot_tracker_x"), ⟨some true, some false⟩)] })
    ({ emptyRequest with
      slots := [(("__internal_slot_tracker_x"), ⟨some false, some true⟩)] })
    ({ emptyRequest with
      slots := [(("__internal_slot_tracker_x"), ⟨some true, some false⟩)] })
    ({ emptyRequest with
      slots := [(("__internal_slot_tracker_x"), ⟨some false, some true⟩)] })
    ("__internal_slot_tracker_x") ⟨some true, some false⟩
    ⟨some true, some false⟩ (by decide) (by decide) (by decide)
    (by decide) (by decide)

/-! ## Claim C4 — merger map-union contract -/

theorem mergedMapLookup {β : Type} (b u : FilterMap β) (k : String)
    (h : fmKeysNodup u) :
    fmLookup (if u.isEmpty then b else fmExtend b u) k =
      firstSome (fmLookup u k) (fmLookup b k) := by
  cases u with
  | nil => simp [fmLookup, firstSome]
  | cons kv rest =>
    rw [if_neg (by simp)]
    exact fmLookup_fmExtend b _ k h

theorem rust_merge_slots_lookup {β : Type}
    (base upd : SubscribeRequest β) (iid : String) (replay : Bool)
    (k : String) (h : fmKeysNodup upd.slots) :
    fmLookup (RustClient.merge_subscribe_requests base upd iid replay).slots
        k =
      if replay = true ∧ iid ≠ "" ∧ k = iid ∧
          (fmLookup base.slots iid).isSome then
        fmLookup base.slots iid
      else firstSome (fmLookup upd.slots k) (fmLookup base.slots k) := by
  have hbase := mergedMapLookup base.slots upd.slots k h
  simp only [RustClient.merge_subscribe_requests]
  by_cases hr : replay = true ∧ iid ≠ ""
  · rw [if_pos hr]
    cases hb : fmLookup base.slots iid with
    | none =>
      have hcond : ¬ (replay = true ∧ iid ≠ "" ∧ k = iid ∧
          (none : Option SubscribeRequestFilterSlots).isSome = true) := by
        simp
      rw [if_neg hcond]
      exact hbase
    | some e =>
      show fmLookup (fmInsert
        (if upd.slots.isEmpty then base.slots
          else fmExtend base.slots upd.slots) iid e) k = _
      rw [fmLookup_fmInsert]
      by_cases hk : iid = k
      · subst hk
        rw [if_pos rfl,
          if_pos (⟨hr.1, hr.2, rfl, rfl⟩ : replay = true ∧ iid ≠ "" ∧
            iid = iid ∧ (some e).isSome = true)]
      · have hcond : ¬ (replay = true ∧ iid ≠ "" ∧ k = iid ∧
            (some e).isSome = true) := by
          rintro ⟨-, -, hkk, -⟩
          exact hk hkk.symm
        rw [if_neg hk, if_neg hcond]
        exact hbase
  · have hcond : ¬ (replay = true ∧ iid ≠ "" ∧ k = iid ∧
        (fmLookup base.slots iid).isSome = true) :=
      fun hc => hr ⟨hc.1, hc.2.1⟩
    rw [if_neg hr, if_neg hcond]
    exact hbase

/-- Claim C4, counterexample: the claim states an empty map in the
update leaves the corresponding map of base unchanged; the NAPI merger
(stream.rs 664) replaces `accounts` wholesale, so merging an empty
modification drops base's key `a`. -/
theorem c4_counterexample :
    fmLookup
      (NapiStream.merge_subscribe_requests
        ({ emptyRequest with accounts := [(("a"), 1)] } :
          SubscribeRequest Nat)
        emptyRequest).accounts ("a") = none ∧
    fmLookup
      ({ emptyRequest with accounts := [(("a"), 1)] } :
        SubscribeRequest Nat).accounts ("a") = some 1 := by
  constructor
  · decide
  · decide

/-- Claim C4 (amended): merger map contract.  For the Rust client's
merger, for each of the seven named filter maps the merged map's binding
at any key `k` is the update's binding when the update has one and
otherwise base's binding (so empty update maps leave base's bindings
unchanged) — except that the slots binding at the internal id keeps
base's value when replay is enabled, the internal id is nonempty and
base holds an internal entry.  The NAPI merger instead replaces each of
the seven maps wholesale with the modification's map (re-inserting only
the preserved internal tracker entry into slots): base keys absent from
the modification are dropped, and an empty modification map empties the
base map. -/
theorem c4_amended {β : Type} (base upd cur mod : SubscribeRequest β)
    (iid : String) (replay : Bool) (k : String)
    (hnd : fmKeysNodup upd.accounts ∧ fmKeysNodup upd.slots ∧
      fmKeysNodup upd.transactions ∧ fmKeysNodup upd.transactions_status ∧
      fmKeysNodup upd.blocks ∧ fmKeysNodup upd.blocks_meta ∧
      fmKeysNodup upd.entry) :
    (fmLookup (RustClient.merge_subscribe_requests base upd iid
        replay).accounts k =
      firstSome (fmLookup upd.accounts k) (fmLookup base.accounts k)) ∧
    (fmLookup (RustClient.merge_subscribe_requests base upd iid
        replay).transactions k =
      firstSome (fmLookup upd.transactions k)
        (fmLookup base.transactions k)) ∧
    (fmLookup (RustClient.merge_subscribe_requests base upd iid
        replay).transactions_status k =
      firstSome (fmLookup upd.transactions_status k)
        (fmLookup base.transactions_status k)) ∧
    (fmLookup (RustClient.merge_subscribe_requests base upd iid
        replay).blocks k =
      firstSome (fmLookup upd.blocks k) (fmLookup base.blocks k)) ∧
    (fmLookup (RustClient.merge_subscribe_requests base upd iid
        replay).blocks_meta k =
      firstSome (fmLookup upd.blocks_meta k)
        (fmLookup base.blocks_meta k)) ∧
    (fmLookup (RustClient.merge_subscribe_requests base upd iid
        replay).entry k =
      firstSome (fmLookup upd.entry k) (fmLookup base.entry k)) ∧
    (fmLookup (RustClient.merge_subscribe_requests base upd iid
        replay).slots k =
      if replay = true ∧ iid ≠ "" ∧ k = iid ∧
          (fmLookup base.slots iid).isSome then
        fmLookup base.slots iid
      else firstSome (fmLookup upd.slots k) (fmLookup base.slots k)) ∧
    ((NapiStream.merge_subscribe_requests cur mod).accounts =
      mod.accounts) ∧
    ((NapiStream.merge_subscribe_requests cur mod).transactions =
      mod.transactions) ∧
    ((NapiStream.merge_subscribe_requests cur mod).transactions_status =
      mod.transactions_status) ∧
    ((NapiStream.merge_subscribe_requests cur mod).blocks = mod.blocks) ∧
    ((NapiStream.merge_subscribe_requests cur mod).blocks_meta =
      mod.blocks_meta) ∧
    ((NapiStream.merge_subscribe_requests cur mod).entry = mod.entry) ∧
    (cur.slots.find? (fun kv => strStartsWith kv.1 NapiStream.trackerPfx) =
        none →
      (NapiStream.merge_subscribe_requests cur mod).slots = mod.slots) := by
  obtain ⟨h1, h2, h3, h4, h5, h6, h7⟩ := hnd
  refine ⟨?_, ?_, ?_, ?_, ?_, ?_,
    rust_merge_slots_lookup base upd iid replay k h2,
    rfl, rfl, rfl, rfl, rfl, rfl, ?_⟩
  · simp only [RustClient.merge_subscribe_requests]
    exact mergedMapLookup _ _ _ h1
  · simp only [RustClient.merge_subscribe_requests]
    exact mergedMapLookup _ _ _ h3
  · simp only [RustClient.merge_subscribe_requests]
    exact mergedMapLookup _ _ _ h4
  · simp only [RustClient.merge_subscribe_requests]
    exact mergedMapLookup _ _ _ h5
  · simp only [RustClient.merge_subscribe_requests]
    exact mergedMapLookup _ _ _ h6
  · simp only [RustClient.merge_subscribe_requests]
    exact mergedMapLookup _ _ _ h7
  · intro hfind
    simp [NapiStream.merge_subscribe_requests, hfind]

/-- Claim C4, witness: the amended theorem at a concrete pair of
requests (update overrides key `a`, leaves key `b`, collides with the
internal id in slots). -/
theorem c4_amended_witness :
    (fmLookup (RustClient.merge_subscribe_requests
        ({ emptyRequest with
          accounts := [(("a"), 1), (("b"), 2)],
          slots := [(("i"), ⟨some true, none⟩)] } : SubscribeRequest Nat)
        ({ emptyRequest with
          accounts := [(("a"), 10)],
          slots := [(("i"), ⟨some false, none⟩)] })
        ("i") true).accounts ("a") =
      firstSome (fmLookup [(("a"), 10)] ("a"))
        (fmLookup [(("a"), 1), (("b"), 2)] ("a"))) ∧
    (fmLookup (RustClient.merge_subscribe_requests
        ({ emptyRequest with
          accounts := [(("a"), 1), (("b"), 2)],
          slots := [(("i"), ⟨some true, none⟩)] } : SubscribeRequest Nat)
        ({ emptyRequest with
          accounts := [(("a"), 10)],
          slots := [(("i"), ⟨some false, none⟩)] })
        ("i") true).slots ("i") = some ⟨some true, none⟩) ∧
    ((NapiStream.merge_subscribe_requests
        ({ emptyRequest with accounts := [(("a"), 1), (("b"), 2)] } :
          SubscribeRequest Nat)
        ({ emptyRequest with accounts := [(("a"), 10)] })).accounts =
      [(("a"), 10)]) := by
  have h := c4_amended (β := Nat)
    ({ emptyRequest with
      accounts := [(("a"), 1), (("b"), 2)],
      slots := [(("i"), ⟨some true, none⟩)] })
    ({ emptyRequest with
      accounts := [(("a"), 10)],
      slots := [(("i"), ⟨some false, none⟩)] })
    ({ emptyRequest with accounts := [(("a"), 1), (("b"), 2)] })
    ({ emptyRequest with accounts := [(("a"), 10)] })
    ("i") true ("a") (by decide)
  refine ⟨h.1, ?_, h.2.2.2.2.2.2.2.1⟩
  have h2 := c4_amended (β := Nat)
    ({ emptyRequest with
      accounts := [(("a"), 1), (("b"), 2)],
      slots := [(("i"), ⟨some true, none⟩)] })
    ({ emptyRequest with
      accounts := [(("a"), 10)],
      slots := [(("i"), ⟨some false, none⟩)] })
    ({ emptyRequest with accounts := [(("a"), 1), (("b"), 2)] })
    ({ emptyRequest with accounts := [(("a"), 10)] })
    ("i") true ("i") (by decide)
  have h2s := h2.2.2.2.2.2.2.1
  rw [if_pos (by decide)] at h2s
  simpa using h2s

/-! ## Per-message forwarding lemmas (claims C3, C6, C10) -/

theorem not_mem_filter_ne {l : List String} {iid : String} :
    iid ∉ l.filter (fun f => decide (f ≠ iid)) := by
  intro hmem
  have := (List.mem_filter.mp hmem).2
  simp at this

theorem rustYieldClean_true_some {π : Type} {iid : String} {t : Nat}
    {u v : SubscribeUpdate π}
    (hv : (RustClient.yieldClean true iid t u).2 = some v) :
    v = { u with
      filters := u.filters.filter (fun f => decide (f ≠ iid)) } := by
  simp only [RustClient.yieldClean, eq_self_iff_true, if_true] at hv
  split_ifs at hv with hemp
  simpa using hv.symm

theorem rustYieldClean_true_empty {π : Type} (iid : String) (t : Nat)
    (u : SubscribeUpdate π)
    (hempty : u.filters.filter (fun f => decide (f ≠ iid)) = []) :
    (RustClient.yieldClean true iid t u).2 = none := by
  simp only [RustClient.yieldClean, eq_self_iff_true, if_true]
  rw [if_pos (show (u.filters.filter
    (fun f => decide (f ≠ iid))).isEmpty = true by rw [hempty]; rfl)]

theorem rustYieldClean_true_nonempty {π : Type} (iid : String) (t : Nat)
    (u : SubscribeUpdate π)
    (hne : u.filters.filter (fun f => decide (f ≠ iid)) ≠ []) :
    (RustClient.yieldClean true iid t u).2 =
      some { u with
        filters := u.filters.filter (fun f => decide (f ≠ iid)) } := by
  simp only [RustClient.yieldClean, eq_self_iff_true, if_true]
  rw [if_neg (by simpa [List.isEmpty_iff] using hne)]

theorem rustYieldClean_false {π : Type} (iid : String) (t : Nat)
    (u : SubscribeUpdate π) :
    (RustClient.yieldClean false iid t u).2 = some u := rfl

theorem rustProcessUpdate_true_no_internal {π : Type} {iid : String}
    {t : Nat} {u v : SubscribeUpdate π}
    (hv : (RustClient.processUpdate true iid t u).2 = some v) :
    iid ∉ v.filters := by
  have hmain : ∀ (tr : Nat),
      (RustClient.yieldClean true iid tr u).2 = some v →
        iid ∉ v.filters := by
    intro tr hw
    rw [rustYieldClean_true_some hw]
    exact not_mem_filter_ne
  cases hu : u.update_oneof with
  | none =>
    simp only [RustClient.processUpdate, hu] at hv
    exact hmain t hv
  | some uo =>
    cases uo with
    | ping => simp only [RustClient.processUpdate, hu] at hv; simp at hv
    | pong i => simp only [RustClient.processUpdate, hu] at hv; simp at hv
    | slot s =>
      simp only [RustClient.processUpdate, hu] at hv
      split_ifs at hv with hcond
      exact hmain _ hv
    | account p =>
      simp only [RustClient.processUpdate, hu] at hv
      exact hmain t hv
    | transaction p =>
      simp only [RustClient.processUpdate, hu] at hv
      exact hmain t hv
    | transactionStatus p =>
      simp only [RustClient.processUpdate, hu] at hv
      exact hmain t hv
    | block p =>
      simp only [RustClient.processUpdate, hu] at hv
      exact hmain t hv
    | blockMeta p =>
      simp only [RustClient.processUpdate, hu] at hv
      exact hmain t hv
    | entry p =>
      simp only [RustClient.processUpdate, hu] at hv
      exact hmain t hv

theorem rustProcessUpdate_singleton {π : Type} (replay : Bool)
    (iid : String) (t : Nat) (u : SubscribeUpdate π)
    (s : SubscribeUpdateSlot) (hu : u.update_oneof = some (.slot s))
    (hf : u.filters = [iid]) :
    (RustClient.processUpdate replay iid t u).2 = none := by
  simp only [RustClient.processUpdate, hu]
  rw [if_pos ⟨by simp [hf], by simp [hf]⟩]

theorem jsProcessMessage_singleton {π : Type} (iid : String) (t : Nat)
    (u : SubscribeUpdate π) (s : SubscribeUpdateSlot)
    (hu : u.update_oneof = some (.slot s)) (hf : u.filters = [iid]) :
    (NapiStream.processMessage iid t u).2 = none := by
  simp only [NapiStream.processMessage, hu]
  rw [if_pos ⟨by simp [hf], by simp [hf]⟩]

theorem jsProcessMessage_slot_some {π : Type} (iid : String) (t : Nat)
    (u : SubscribeUpdate π) (s : SubscribeUpdateSlot)
    (hu : u.update_oneof = some (.slot s))
    (hnot : ¬ (u.filters.length = 1 ∧ iid ∈ u.filters)) :
    (NapiStream.processMessage iid t u).2 =
      some { u with
        filters := NapiStream.stripInternalFilter u.filters iid } := by
  simp only [NapiStream.processMessage, hu]
  rw [if_neg hnot]

theorem jsProcessMessage_nonslot {π : Type} (iid : String) (t : Nat)
    (u : SubscribeUpdate π)
    (hp : isPingVariant u.update_oneof = false)
    (hq : isPongVariant u.update_oneof = false)
    (hs : isSlotVariant u.update_oneof = false) :
    (NapiStream.processMessage iid t u).2 = some u := by
  cases hu : u.update_oneof with
  | none => simp only [NapiStream.processMessage, hu]
  | some uo =>
    cases uo with
    | ping => rw [hu] at hp; simp [isPingVariant] at hp
    | pong i => rw [hu] at hq; simp [isPongVariant] at hq
    | slot s => rw [hu] at hs; simp [isSlotVariant] at hs
    | account p => simp only [NapiStream.processMessage, hu]
    | transaction p => simp only [NapiStream.processMessage, hu]
    | transactionStatus p => simp only [NapiStream.processMessage, hu]
    | block p => simp only [NapiStream.processMessage, hu]
    | blockMeta p => simp only [NapiStream.processMessage, hu]
    | entry p => simp only [NapiStream.processMessage, hu]

theorem rustProcessUpdate_false_some {π : Type} (iid : String) (t : Nat)
    (u : SubscribeUpdate π)
    (hp : isPingVariant u.update_oneof = false)
    (hq : isPongVariant u.update_oneof = false)
    (hnotmem : iid ∉ u.filters) :
    (RustClient.processUpdate false iid t u).2 = some u := by
  cases hu : u.update_oneof with
  | none => simp only [RustClient.processUpdate, hu]; rfl
  | some uo =>
    cases uo with
    | ping => rw [hu] at hp; simp [isPingVariant] at hp
    | pong i => rw [hu] at hq; simp [isPongVariant] at hq
    | slot s =>
      simp only [RustClient.processUpdate, hu]
      rw [if_neg (fun hc => hnotmem hc.2)]
      rfl
    | account p => simp only [RustClient.processUpdate, hu]; rfl
    | transaction p => simp only [RustClient.processUpdate, hu]; rfl
    | transactionStatus p => simp only [RustClient.processUpdate, hu]; rfl
    | block p => simp only [RustClient.processUpdate, hu]; rfl
    | blockMeta p => simp only [RustClient.processUpdate, hu]; rfl
    | entry p => simp only [RustClient.processUpdate, hu]; rfl

theorem rustProcessUpdate_true_empty_none {π : Type} (iid : String)
    (t : Nat) (u : SubscribeUpdate π)
    (hp : isPingVariant u.update_oneof = false)
    (hq : isPongVariant u.update_oneof = false)
    (hempty : u.filters.filter (fun f => decide (f ≠ iid)) = []) :
    (RustClient.processUpdate true iid t u).2 = none := by
  cases hu : u.update_oneof with
  | none =>
    simp only [RustClient.processUpdate, hu]
    exact rustYieldClean_true_empty iid t u hempty
  | some uo =>
    cases uo with
    | ping => rw [hu] at hp; simp [isPingVariant] at hp
    | pong i => rw [hu] at hq; simp [isPongVariant] at hq
    | slot s =>
      simp only [RustClient.processUpdate, hu]
      split_ifs with hcond
      · rfl
      · exact rustYieldClean_true_empty iid _ u hempty
    | account p =>
      simp only [RustClient.processUpdate, hu]
      exact rustYieldClean_true_empty iid t u hempty
    | transaction p =>
      simp only [RustClient.processUpdate, hu]
      exact rustYieldClean_true_empty iid t u hempty
    | transactionStatus p =>
      simp only [RustClient.processUpdate, hu]
      exact rustYieldClean_true_empty iid t u hempty
    | block p =>
      simp only [RustClient.processUpdate, hu]
      exact rustYieldClean_true_empty iid t u hempty
    | blockMeta p =>
      simp only [RustClient.processUpdate, hu]
      exact rustYieldClean_true_empty iid t u hempty
    | entry p =>
      simp only [RustClient.processUpdate, hu]
      exact rustYieldClean_true_empty iid t u hempty

theorem rustProcessUpdate_true_strip {π : Type} (iid : String) (t : Nat)
    (u : SubscribeUpdate π)
    (hp : isPingVariant u.update_oneof = false)
    (hq : isPongVariant u.update_oneof = false)
    (hmem : iid ∈ u.filters) (hcount : u.filters.count iid = 1)
    (hlen : 1 < u.filters.length) :
    (RustClient.processUpdate true iid t u).2 =
      some { u with filters := u.filters.erase iid } := by
  have hfe : u.filters.filter (fun f => decide (f ≠ iid)) =
      u.filters.erase iid := filter_ne_count_one hcount
  have herase_ne : u.filters.erase iid ≠ [] := by
    intro hc
    have hl := List.length_erase_of_mem hmem
    rw [hc] at hl
    simp at hl
    omega
  have hclean : ∀ (tr : Nat),
      (RustClient.yieldClean true iid tr u).2 =
        some { u with filters := u.filters.erase iid } := by
    intro tr
    rw [rustYieldClean_true_nonempty iid tr u (by rw [hfe]; exact herase_ne),
      hfe]
  cases hu : u.update_oneof with
  | none => simp only [RustClient.processUpdate, hu]; exact hu ▸ hclean t
  | some uo =>
    cases uo with
    | ping => rw [hu] at hp; simp [isPingVariant] at hp
    | pong i => rw [hu] at hq; simp [isPongVariant] at hq
    | slot s =>
      simp only [RustClient.processUpdate, hu]
      rw [if_neg (fun hc => by omega)]
      exact hu ▸ hclean _
    | account p => simp only [RustClient.processUpdate, hu]; exact hu ▸ hclean t
    | transaction p => simp only [RustClient.processUpdate, hu]; exact hu ▸ hclean t
    | transactionStatus p =>
      simp only [RustClient.processUpdate, hu]; exact hu ▸ hclean t
    | block p => simp only [RustClient.processUpdate, hu]; exact hu ▸ hclean t
    | blockMeta p => simp only [RustClient.processUpdate, hu]; exact hu ▸ hclean t
    | entry p => simp only [RustClient.processUpdate, hu]; exact hu ▸ hclean t

theorem jsProcessMessage_no_internal {π : Type} {iid : String} {t : Nat}
    {u v : SubscribeUpdate π}
    (hcount : u.filters.count iid ≤ 1)
    (hyg : (∃ s, u.update_oneof = some (.slot s)) ∨ iid ∉ u.filters)
    (hv : (NapiStream.processMessage iid t u).2 = some v) :
    iid ∉ v.filters := by
  have hother : ∀ (hnm : iid ∉ u.filters),
      (t, some u).2 = some v → iid ∉ v.filters := by
    intro hnm hv'
    have huv : u = v := by simpa using hv'
    exact huv ▸ hnm
  cases hu : u.update_oneof with
  | none =>
    rcases hyg with ⟨s, hs⟩ | hnm
    · rw [hu] at hs; cases hs
    · simp only [NapiStream.processMessage, hu] at hv
      exact hother hnm hv
  | some uo =>
    cases uo with
    | ping => simp only [NapiStream.processMessage, hu] at hv; simp at hv
    | pong i => simp only [NapiStream.processMessage, hu] at hv; simp at hv
    | slot s =>
      simp only [NapiStream.processMessage, hu] at hv
      split_ifs at hv with hcond
      have hveq :
          ({ filters := NapiStream.stripInternalFilter u.filters iid,
             update_oneof := some (.slot s),
             created_at := u.created_at } : SubscribeUpdate π) = v := by
        simpa using hv
      rw [← hveq]
      by_cases hmem : iid ∈ u.filters
      · simpa using not_mem_stripInternalFilter hmem hcount
      · have hsame : NapiStream.stripInternalFilter u.filters iid =
            u.filters := by
          simp only [NapiStream.stripInternalFilter,
            NapiStream.position_eq_none hmem]
        simpa [hsame] using hmem
    | account p =>
      rcases hyg with ⟨s, hs⟩ | hnm
      · rw [hu] at hs; simp at hs
      · simp only [NapiStream.processMessage, hu] at hv
        exact hother hnm hv
    | transaction p =>
      rcases hyg with ⟨s, hs⟩ | hnm
      · rw [hu] at hs; simp at hs
      · simp only [NapiStream.processMessage, hu] at hv
        exact hother hnm hv
    | transactionStatus p =>
      rcases hyg with ⟨s, hs⟩ | hnm
      · rw [hu] at hs; simp at hs
      · simp only [NapiStream.processMessage, hu] at hv
        exact hother hnm hv
    | block p =>
      rcases hyg with ⟨s, hs⟩ | hnm
      · rw [hu] at hs; simp at hs
      · simp only [NapiStream.processMessage, hu] at hv
        exact hother hnm hv
    | blockMeta p =>
      rcases hyg with ⟨s, hs⟩ | hnm
      · rw [hu] at hs; simp at hs
      · simp only [NapiStream.processMessage, hu] at hv
        exact hother hnm hv
    | entry p =>
      rcases hyg with ⟨s, hs⟩ | hnm
      · rw [hu] at hs; simp at hs
      · simp only [NapiStream.processMessage, hu] at hv
        exact hother hnm hv

/-! ## Claim C3 — internal-filter hygiene invariant -/

/-- Claim C3 (confirmed): internal-filter hygiene.  (i) In the Rust
client with replay enabled (the only mode in which the internal
slot-tracker subscription exists), every forwarded update's filter list
is free of the internal id (the engine retains only other ids and drops
updates whose cleaned list is empty).  (ii)/(iii) In both engines, an
inbound slot event whose filter list is exactly the singleton
`[internal_id]` is never forwarded.  (iv) In the NAPI engine, a
forwarded message's filter list is free of the internal id, under the
hygiene premises that hold of real traffic: the internal id occurs at
most once in a filter list, and only slot events can carry it (the
internal entry is a slots subscription, and non-slot messages are
forwarded without filter cleanup). -/
theorem c3_internal_filter_hygiene {π : Type} (iid : String) (t : Nat)
    (u v : SubscribeUpdate π) (s : SubscribeUpdateSlot) (replay : Bool) :
    ((RustClient.processUpdate true iid t u).2 = some v →
      iid ∉ v.filters) ∧
    (u.update_oneof = some (.slot s) → u.filters = [iid] →
      (RustClient.processUpdate replay iid t u).2 = none) ∧
    (u.update_oneof = some (.slot s) → u.filters = [iid] →
      (NapiStream.processMessage iid t u).2 = none) ∧
    (u.filters.count iid ≤ 1 →
      ((∃ s', u.update_oneof = some (.slot s')) ∨ iid ∉ u.filters) →
      (NapiStream.processMessage iid t u).2 = some v →
      iid ∉ v.filters) :=
  ⟨fun hv => rustProcessUpdate_true_no_internal hv,
   fun hu hf => rustProcessUpdate_singleton replay iid t u s hu hf,
   fun hu hf => jsProcessMessage_singleton iid t u s hu hf,
   fun hc hyg hv => jsProcessMessage_no_internal hc hyg hv⟩

/-- Claim C3, witness: concrete slot and account messages. -/
theorem c3_witness :
    (("i") ∉ (⟨[("x")], some (.slot ⟨7, none, 0, none⟩), none⟩ :
      SubscribeUpdate Nat).filters) ∧
    ((RustClient.processUpdate true ("i") 0
      (⟨[("i")], some (.slot ⟨7, none, 0, none⟩), none⟩ :
        SubscribeUpdate Nat)).2 = none) ∧
    ((NapiStream.processMessage ("i") 0
      (⟨[("i")], some (.slot ⟨7, none, 0, none⟩), none⟩ :
        SubscribeUpdate Nat)).2 = none) ∧
    (("i") ∉ (⟨[("x")], some (.account 1), none⟩ :
      SubscribeUpdate Nat).filters) := by
  refine ⟨?_, ?_, ?_, ?_⟩
  · exact (c3_internal_filter_hygiene ("i") 0
      (⟨[("i"), ("x")], some (.slot ⟨7, none, 0, none⟩), none⟩ :
        SubscribeUpdate Nat)
      (⟨[("x")], some (.slot ⟨7, none, 0, none⟩), none⟩)
      ⟨7, none, 0, none⟩ true).1 (by decide)
  · exact (c3_internal_filter_hygiene ("i") 0
      (⟨[("i")], some (.slot ⟨7, none, 0, none⟩), none⟩ :
        SubscribeUpdate Nat)
      (⟨[("i")], some (.slot ⟨7, none, 0, none⟩), none⟩)
      ⟨7, none, 0, none⟩ true).2.1 (by decide) (by decide)
  · exact (c3_internal_filter_hygiene ("i") 0
      (⟨[("i")], some (.slot ⟨7, none, 0, none⟩), none⟩ :
        SubscribeUpdate Nat)
      (⟨[("i")], some (.slot ⟨7, none, 0, none⟩), none⟩)
      ⟨7, none, 0, none⟩ true).2.2.1 (by decide) (by decide)
  · exact (c3_internal_filter_hygiene ("i") 0
      (⟨[("x")], some (.account 1), none⟩ : SubscribeUpdate Nat)
      (⟨[("x")], some (.account 1), none⟩)
      ⟨7, none, 0, none⟩ true).2.2.2 (by decide)
      (Or.inr (by decide)) (by decide)

/-! ## Claim C6 — strip-only transformation -/

/-- Claim C6, counterexample: the claim requires the forwarded update to
keep the remaining filters in their original order; the NAPI engine
removes the internal id with `swap_remove` (stream.rs 421–423), which
moves the last filter into the hole: for the slot message with filters
`[a, i, b, c]` and internal id `i`, the forwarded filters are
`[a, c, b]`, not `[a, b, c]`. -/
theorem c6_counterexample :
    (NapiStream.processMessage ("i") 0
      (⟨[("a"), ("i"), ("b"), ("c")], some (.slot ⟨10, none, 0, none⟩),
        none⟩ : SubscribeUpdate Nat)).2 =
      some ⟨[("a"), ("c"), ("b")], some (.slot ⟨10, none, 0, none⟩),
        none⟩ ∧
    ([("a"), ("c"), ("b")] : List String) ≠ [("a"), ("b"), ("c")] := by
  constructor
  · decide
  · decide

/-- Claim C6 (amended): strip-only transformation.  For a non-ping,
non-pong inbound message whose filter list contains the internal id
exactly once among at least two filters: the Rust client (replay
enabled) forwards the message with exactly the internal id removed,
preserving the order of the remaining filters, and all other fields
unchanged; the NAPI engine (which performs this cleanup for slot
messages, the only kind that can carry the internal id) forwards the
message with the internal id removed by `swap_remove` and all other
fields unchanged — the remaining filters are a permutation of the
order-preserving removal, but their order may change. -/
theorem c6_amended {π : Type} (iid : String) (t : Nat)
    (u : SubscribeUpdate π) (s : SubscribeUpdateSlot)
    (hp : isPingVariant u.update_oneof = false)
    (hq : isPongVariant u.update_oneof = false)
    (hmem : iid ∈ u.filters) (hcount : u.filters.count iid = 1)
    (hlen : 1 < u.filters.length) :
    ((RustClient.processUpdate true iid t u).2 =
      some { u with filters := u.filters.erase iid }) ∧
    (u.update_oneof = some (.slot s) →
      (NapiStream.processMessage iid t u).2 =
        some { u with
          filters := NapiStream.stripInternalFilter u.filters iid } ∧
      List.Perm (NapiStream.stripInternalFilter u.filters iid)
        (u.filters.erase iid)) := by
  constructor
  · exact rustProcessUpdate_true_strip iid t u hp hq hmem hcount hlen
  · intro hu
    refine ⟨jsProcessMessage_slot_some iid t u s hu
      (fun hc => by omega), ?_⟩
    exact NapiStream.stripInternalFilter_perm u.filters iid hmem

/-- Claim C6, witness: the amended theorem at the slot message with
filters `[a, i, b, c]`. -/
theorem c6_amended_witness :
    ((RustClient.processUpdate true ("i") 0
      (⟨[("a"), ("i"), ("b"), ("c")], some (.slot ⟨10, none, 0, none⟩),
        none⟩ : SubscribeUpdate Nat)).2 =
      some { (⟨[("a"), ("i"), ("b"), ("c")],
        some (.slot ⟨10, none, 0, none⟩), none⟩ : SubscribeUpdate Nat) with
        filters := ([("a"), ("i"), ("b"), ("c")] : List String).erase
          ("i") }) ∧
    ((NapiStream.processMessage ("i") 0
      (⟨[("a"), ("i"), ("b"), ("c")], some (.slot ⟨10, none, 0, none⟩),
        none⟩ : SubscribeUpdate Nat)).2 =
      some { (⟨[("a"), ("i"), ("b"), ("c")],
        some (.slot ⟨10, none, 0, none⟩), none⟩ : SubscribeUpdate Nat) with
        filters := NapiStream.stripInternalFilter
          [("a"), ("i"), ("b"), ("c")] ("i") } ∧
      List.Perm
        (NapiStream.stripInternalFilter [("a"), ("i"), ("b"), ("c")] ("i"))
        (([("a"), ("i"), ("b"), ("c")] : List String).erase ("i"))) := by
  have h := c6_amended (π := Nat) ("i") 0
    (⟨[("a"), ("i"), ("b"), ("c")], some (.slot ⟨10, none, 0, none⟩),
      none⟩) ⟨10, none, 0, none⟩ (by decide) (by decide) (by decide)
    (by decide) (by decide)
  exact ⟨h.1, h.2 rfl⟩

/-! ## Claim C10 — implicit empty-filter drop in the native stream -/

/-- Claim C10 (confirmed): in the Rust client with replay enabled, every
non-ping, non-pong inbound update whose filter list is empty after
removing the internal id — including a non-slot update that arrived with
an empty filter list — is discarded (client.rs 264–276, helped by the
line-259 singleton guard for slot events); with replay disabled, every
non-ping, non-pong update not carrying the internal id (none can, since
the internal subscription is never registered in that mode) is yielded
unchanged. -/
theorem c10_empty_filter_drop {π : Type} (iid : String) (t : Nat)
    (u : SubscribeUpdate π)
    (hp : isPingVariant u.update_oneof = false)
    (hq : isPongVariant u.update_oneof = false) :
    (u.filters.filter (fun f => decide (f ≠ iid)) = [] →
      (RustClient.processUpdate true iid t u).2 = none) ∧
    (iid ∉ u.filters →
      (RustClient.processUpdate false iid t u).2 = some u) :=
  ⟨fun hempty => rustProcessUpdate_true_empty_none iid t u hp hq hempty,
   fun hnm => rustProcessUpdate_false_some iid t u hp hq hnm⟩

/-- Claim C10, witness: a non-slot update with an empty filter list is
dropped under replay, and yielded unchanged without replay. -/
theorem c10_witness :
    ((RustClient.processUpdate true ("i") 0
      (⟨[], some (.account 5), none⟩ : SubscribeUpdate Nat)).2 = none) ∧
    ((RustClient.processUpdate false ("i") 0
      (⟨[("x")], some (.account 5), none⟩ : SubscribeUpdate Nat)).2 =
      some ⟨[("x")], some (.account 5), none⟩) :=
  ⟨(c10_empty_filter_drop ("i") 0
      (⟨[], some (.account 5), none⟩ : SubscribeUpdate Nat)
      (by decide) (by decide)).1 (by decide),
   (c10_empty_filter_drop ("i") 0
      (⟨[("x")], some (.account 5), none⟩ : SubscribeUpdate Nat)
      (by decide) (by decide)).2 (by decide)⟩

/-! ## Supervisor lemmas (claims C2, C7) -/

theorem js_items_shape {β π : Type} (M : Nat) (r : Bool) (iid : String)
    (c : Int) :
    ∀ (os : List (AttemptOutcome β π)) (a t : Nat)
      (cur : SubscribeRequest β),
      ∃ us : List (SubscribeUpdate π),
        ((NapiStream.supervisorRun M r iid c a t cur os).items =
            us.map NapiStream.JsItem.update ∧
          (NapiStream.supervisorRun M r iid c a t cur os).terminated =
            false) ∨
        (∃ e, (NapiStream.supervisorRun M r iid c a t cur os).items =
            us.map NapiStream.JsItem.update ++
              [NapiStream.JsItem.error M e] ∧
          (NapiStream.supervisorRun M r iid c a t cur os).terminated =
            true) := by
  intro os
  induction os with
  | nil => intro a t cur; exact ⟨[], Or.inl ⟨rfl, rfl⟩⟩
  | cons o rest ih =>
    intro a t cur
    cases o with
    | connectFail e =>
      by_cases hcap : a + 1 ≥ M
      · refine ⟨[], Or.inr ⟨e, ?_, ?_⟩⟩
        · simp only [NapiStream.supervisorRun]
          rw [if_pos hcap]
          rfl
        · simp only [NapiStream.supervisorRun]
          rw [if_pos hcap]
      · have hrec := ih (a + 1) t
          ({ cur with from_slot := NapiStream.recomputeFromSlot t r c })
        simp only [NapiStream.supervisorRun]
        rw [if_neg hcap]
        exact hrec
    | connected evs =>
      cases hserr : (NapiStream.runSession iid t false cur evs).err with
      | none =>
        obtain ⟨us, hcase⟩ := ih 0
          (NapiStream.runSession iid t false cur evs).tracked
          ({ (NapiStream.runSession iid t false cur evs).current with
            from_slot := NapiStream.recomputeFromSlot
              (NapiStream.runSession iid t false cur evs).tracked r c })
        refine ⟨(NapiStream.runSession iid t false cur evs).delivered ++ us,
          ?_⟩
        rcases hcase with ⟨h1, h2⟩ | ⟨e, h1, h2⟩
        · exact Or.inl ⟨by simp [NapiStream.supervisorRun, hserr, h1],
            by simp [NapiStream.supervisorRun, hserr, h2]⟩
        · exact Or.inr ⟨e,
            by simp [NapiStream.supervisorRun, hserr, h1],
            by simp [NapiStream.supervisorRun, hserr, h2]⟩
      | some e =>
        by_cases hcap :
          (if (NapiStream.runSession iid t false cur evs).progress then 1
            else a + 1) ≥ M
        · refine ⟨(NapiStream.runSession iid t false cur evs).delivered,
            Or.inr ⟨e, ?_, ?_⟩⟩
          · simp only [NapiStream.supervisorRun]
            rw [hserr]
            simp only []
            rw [if_pos hcap]
          · simp only [NapiStream.supervisorRun]
            rw [hserr]
            simp only []
            rw [if_pos hcap]
        · obtain ⟨us, hcase⟩ := ih
            (if (NapiStream.runSession iid t false cur evs).progress then 1
              else a + 1)
            (NapiStream.runSession iid t false cur evs).tracked
            ({ (NapiStream.runSession iid t false cur evs).current with
              from_slot := NapiStream.recomputeFromSlot
                (NapiStream.runSession iid t false cur evs).tracked r c })
          refine ⟨(NapiStream.runSession iid t false cur evs).delivered ++ us,
            ?_⟩
          rcases hcase with ⟨h1, h2⟩ | ⟨e', h1, h2⟩
          · exact Or.inl
              ⟨by simp only [NapiStream.supervisorRun]
                  rw [hserr]
                  simp only []
                  rw [if_neg hcap]
                  simp [h1],
               by simp only [NapiStream.supervisorRun]
                  rw [hserr]
                  simp only []
                  rw [if_neg hcap]
                  simp [h2]⟩
          · exact Or.inr ⟨e',
              by simp only [NapiStream.supervisorRun]
                 rw [hserr]
                 simp only []
                 rw [if_neg hcap]
                 simp [h1],
              by simp only [NapiStream.supervisorRun]
                 rw [hserr]
                 simp only []
                 rw [if_neg hcap]
                 simp [h2]⟩

/-! ## Claim C2 — error surfacing during retry -/

/-- Claim C2, counterexample: the claim states that while the retry cap
is not exhausted no error item is delivered to the caller; but the Rust
client yields every mid-stream gRPC status error immediately
(client.rs 278–283): one connected session ending in a status error
produces an error item while the supervisor keeps running (cap 240 far
from exhausted). -/
theorem c2_counterexample :
    (RustClient.supervisorRun 240 true ("i") 0 0
      (emptyRequest : SubscribeRequest Nat)
      ([.connected [.errStatus ("boom")]] :
        List (AttemptOutcome Nat Nat))).items =
      [RustClient.RustItem.errStatus ("boom")] ∧
    (RustClient.supervisorRun 240 true ("i") 0 0
      (emptyRequest : SubscribeRequest Nat)
      ([.connected [.errStatus ("boom")]] :
        List (AttemptOutcome Nat Nat))).terminated = false := by
  constructor
  · rfl
  · rfl

/-- Claim C2 (amended): error surfacing during retry.  NAPI engine: no
error item is ever delivered while the loop continues — the delivered
items of any run are user updates, followed by exactly one terminal
error exactly when the counter reached the cap, after which the loop has
terminated (no further items).  Rust client: a connection-setup failure
below the cap delivers nothing and the run continues unchanged; when
setup failures reach the cap a single terminal `MaxReconnectAttempts`
error is yielded and the stream ends; however a mid-stream gRPC status
error is yielded to the caller immediately as a non-terminal item and
reconnection continues. -/
theorem c2_amended {β π : Type} (M : Nat) (r : Bool) (iid : String)
    (c : Int) (a t : Nat) (cur : SubscribeRequest β)
    (os rest : List (AttemptOutcome β π)) (e s : String)
    (evrest : List (SessionEvent β π)) :
    (∃ us : List (SubscribeUpdate π),
      ((NapiStream.supervisorRun M r iid c a t cur os).items =
          us.map NapiStream.JsItem.update ∧
        (NapiStream.supervisorRun M r iid c a t cur os).terminated =
          false) ∨
      (∃ e', (NapiStream.supervisorRun M r iid c a t cur os).items =
          us.map NapiStream.JsItem.update ++
            [NapiStream.JsItem.error M e'] ∧
        (NapiStream.supervisorRun M r iid c a t cur os).terminated =
          true)) ∧
    (a + 1 < M →
      RustClient.supervisorRun M r iid a t cur
          (.connectFail e :: rest) =
        RustClient.supervisorRun M r iid (a + 1) t cur rest) ∧
    (a + 1 ≥ M →
      RustClient.supervisorRun M r iid a t cur
          (.connectFail e :: rest) =
        ⟨[.errMaxReconnect M], a + 1, t, cur, true⟩) ∧
    ((RustClient.supervisorRun M r iid a t cur
        (.connected (.errStatus s :: evrest) :: rest)).items =
      .errStatus s ::
        (RustClient.supervisorRun M r iid 0 t cur rest).items) := by
  refine ⟨js_items_shape M r iid c os a t cur, ?_, ?_, ?_⟩
  · intro hlt
    simp only [RustClient.supervisorRun]
    rw [if_neg (by omega)]
  · intro hge
    simp only [RustClient.supervisorRun]
    rw [if_pos hge]
  · rfl

/-- Claim C2, witness: the amended theorem at concrete runs. -/
theorem c2_amended_witness :
    (RustClient.supervisorRun 240 true ("i") 0 0
        (emptyRequest : SubscribeRequest Nat)
        ([.connectFail ("x"), .connected [.streamEnd]] :
          List (AttemptOutcome Nat Nat)) =
      RustClient.supervisorRun 240 true ("i") 1 0 emptyRequest
        [.connected [.streamEnd]]) ∧
    (RustClient.supervisorRun 1 true ("i") 0 0
        (emptyRequest : SubscribeRequest Nat)
        ([.connectFail ("x")] : List (AttemptOutcome Nat Nat)) =
      ⟨[.errMaxReconnect 1], 1, 0, emptyRequest, true⟩) ∧
    ((RustClient.supervisorRun 240 true ("i") 0 0
        (emptyRequest : SubscribeRequest Nat)
        ([.connected [.errStatus ("boom")]] :
          List (AttemptOutcome Nat Nat))).items =
      .errStatus ("boom") ::
        (RustClient.supervisorRun 240 true ("i") 0 0
          (emptyRequest : SubscribeRequest Nat)
          ([] : List (AttemptOutcome Nat Nat))).items) ∧
    (∃ us : List (SubscribeUpdate Nat),
      ((NapiStream.supervisorRun 240 true ("i") 0 0 0
          (emptyRequest : SubscribeRequest Nat)
          ([.connected [.msg (slotMsg 5 [("u")])]] :
            List (AttemptOutcome Nat Nat))).items =
          us.map NapiStream.JsItem.update ∧
        (NapiStream.supervisorRun 240 true ("i") 0 0 0
          (emptyRequest : SubscribeRequest Nat)
          ([.connected [.msg (slotMsg 5 [("u")])]] :
            List (AttemptOutcome Nat Nat))).terminated = false) ∨
      (∃ e', (NapiStream.supervisorRun 240 true ("i") 0 0 0
          (emptyRequest : SubscribeRequest Nat)
          ([.connected [.msg (slotMsg 5 [("u")])]] :
            List (AttemptOutcome Nat Nat))).items =
          us.map NapiStream.JsItem.update ++
            [NapiStream.JsItem.error 240 e'] ∧
        (NapiStream.supervisorRun 240 true ("i") 0 0 0
          (emptyRequest : SubscribeRequest Nat)
          ([.connected [.msg (slotMsg 5 [("u")])]] :
            List (AttemptOutcome Nat Nat))).terminated = true)) :=
  ⟨(c2_amended 240 true ("i") 0 0 0 emptyRequest []
      [.connected [.streamEnd]] ("x") ("y") []).2.1 (by decide),
   (c2_amended 1 true ("i") 0 0 0 emptyRequest [] [] ("x") ("y")
      []).2.2.1 (by decide),
   (c2_amended 240 true ("i") 0 0 0 emptyRequest [] [] ("x") ("boom")
      []).2.2.2,
   (c2_amended 240 true ("i") 0 0 0 emptyRequest
      [.connected [.msg (slotMsg 5 [("u")])]] [] ("x") ("y") []).1⟩

/-! ## Claim C7 — retry accounting -/

/-- Claim C7, counterexample: the claim states that every session
attempt ending with an error increments the attempt counter (or resets
it to 1 when progress was made); in the Rust client a successfully
connected session that then fails mid-stream leaves the counter at 0 —
it is reset on connect success (client.rs 208) and never incremented on
the mid-stream error path (client.rs 278–283). -/
theorem c7_counterexample :
    (RustClient.supervisorRun 240 true ("i") 0 0
      (emptyRequest : SubscribeRequest Nat)
      ([.connected [.errStatus ("boom")]] :
        List (AttemptOutcome Nat Nat))).attempts = 0 ∧
    (RustClient.supervisorRun 240 true ("i") 0 0
      (emptyRequest : SubscribeRequest Nat)
      ([.connected [.errStatus ("boom")]] :
        List (AttemptOutcome Nat Nat))).attempts ≠ 1 := by
  constructor
  · rfl
  · decide

/-- Claim C7 (amended): retry accounting.  NAPI engine (stream.rs
257–281): when an attempt errors without progress the counter becomes
its predecessor plus one; when the session made progress the counter is
reset to 1 instead; when the incremented counter reaches the effective
cap, exactly one terminal error is delivered and the loop terminates,
ignoring any further outcomes.  Rust client (client.rs 204–321): only
connection-setup failures increment the counter; a successful connection
resets it to 0 regardless of how the session ends (there is no progress
flag, and mid-stream errors do not touch the counter); when setup
failures reach the cap exactly one terminal error is yielded and the
loop terminates. -/
theorem c7_amended {β π : Type} (M : Nat) (r : Bool) (iid : String)
    (c : Int) (a t : Nat) (cur : SubscribeRequest β) (e : String)
    (evs : List (SessionEvent β π))
    (rest : List (AttemptOutcome β π)) :
    (a + 1 < M →
      (NapiStream.supervisorRun M r iid c a t cur
        ([.connectFail e] : List (AttemptOutcome β π))).attempts =
        a + 1 ∧
      (NapiStream.supervisorRun M r iid c a t cur
        ([.connectFail e] : List (AttemptOutcome β π))).items = []) ∧
    ((NapiStream.runSession iid t false cur
        (evs : List (SessionEvent β π))).err = some e →
      (NapiStream.runSession iid t false cur evs).progress = true →
      1 < M →
      (NapiStream.supervisorRun M r iid c a t cur
        [.connected evs]).attempts = 1) ∧
    (a + 1 ≥ M →
      NapiStream.supervisorRun M r iid c a t cur
          (.connectFail e :: rest) =
        ⟨[.error M e], a + 1, t, cur, true⟩) ∧
    (a + 1 < M →
      (RustClient.supervisorRun M r iid a t cur
        ([.connectFail e] : List (AttemptOutcome β π))).attempts =
        a + 1) ∧
    ((RustClient.supervisorRun M r iid a t cur
      ([.connected evs] : List (AttemptOutcome β π))).attempts = 0) ∧
    (a + 1 ≥ M →
      RustClient.supervisorRun M r iid a t cur
          (.connectFail e :: rest) =
        ⟨[.errMaxReconnect M], a + 1, t, cur, true⟩) := by
  refine ⟨?_, ?_, ?_, ?_, rfl, ?_⟩
  · intro hlt
    constructor
    · simp only [NapiStream.supervisorRun]
      rw [if_neg (by omega)]
    · simp only [NapiStream.supervisorRun]
      rw [if_neg (by omega)]
  · intro herr hprog hM
    simp only [NapiStream.supervisorRun]
    rw [herr]
    simp only [hprog, if_true]
    rw [if_neg (by omega)]
  · intro hge
    simp only [NapiStream.supervisorRun]
    rw [if_pos hge]
  · intro hlt
    simp only [RustClient.supervisorRun]
    rw [if_neg (by omega)]
  · intro hge
    simp only [RustClient.supervisorRun]
    rw [if_pos hge]

/-- Claim C7, witness: the amended theorem at concrete runs (a session
that delivered one update before failing resets the counter to 1). -/
theorem c7_amended_witness :
    ((NapiStream.supervisorRun 240 true ("i") 0 3 0
      (emptyRequest : SubscribeRequest Nat)
      ([.connectFail ("x")] : List (AttemptOutcome Nat Nat))).attempts =
      4) ∧
    ((NapiStream.supervisorRun 240 true ("i") 0 7 0
      (emptyRequest : SubscribeRequest Nat)
      ([.connected [.msg (slotMsg 5 [("u")]), .errStatus ("boom")]] :
        List (AttemptOutcome Nat Nat))).attempts = 1) ∧
    (NapiStream.supervisorRun 1 true ("i") 0 0 0
        (emptyRequest : SubscribeRequest Nat)
        ([.connectFail ("x")] : List (AttemptOutcome Nat Nat)) =
      ⟨[.error 1 ("x")], 1, 0, emptyRequest, true⟩) ∧
    ((RustClient.supervisorRun 240 true ("i") 3 0
      (emptyRequest : SubscribeRequest Nat)
      ([.connectFail ("x")] : List (AttemptOutcome Nat Nat))).attempts =
      4) ∧
    ((RustClient.supervisorRun 240 true ("i") 3 0
      (emptyRequest : SubscribeRequest Nat)
      ([.connected [.errStatus ("boom")]] :
        List (AttemptOutcome Nat Nat))).attempts = 0) ∧
    (RustClient.supervisorRun 1 true ("i") 0 0
        (emptyRequest : SubscribeRequest Nat)
        ([.connectFail ("x")] : List (AttemptOutcome Nat Nat)) =
      ⟨[.errMaxReconnect 1], 1, 0, emptyRequest, true⟩) :=
  ⟨((c7_amended (β := Nat) (π := Nat) 240 true ("i") 0 3 0 emptyRequest ("x") [] []).1
      (by decide)).1,
   (c7_amended (β := Nat) (π := Nat) 240 true ("i") 0 7 0 emptyRequest ("boom")
      [.msg (slotMsg 5 [("u")]), .errStatus ("boom")] []).2.1
      (by decide) (by decide) (by decide),
   (c7_amended (β := Nat) (π := Nat) 1 true ("i") 0 0 0 emptyRequest ("x") [] []).2.2.1
      (by decide),
   (c7_amended (β := Nat) (π := Nat) 240 true ("i") 0 3 0 emptyRequest ("x") [] []).2.2.2.1
      (by decide),
   (c7_amended (β := Nat) (π := Nat) 240 true ("i") 0 3 0 emptyRequest ("boom")
      [.errStatus ("boom")] []).2.2.2.2.1,
   (c7_amended (β := Nat) (π := Nat) 1 true ("i") 0 0 0 emptyRequest ("x") [] []).2.2.2.2.2
      (by decide)⟩
